import Mathlib

/-!
# vulkan-performance-test: a shallow embedding of `src/main.cpp`

The program is one translation unit with two functions, `errorString` and `main`,
and one checking macro, `VK_CHECK_RESULT`.  Everything the program obtains from
outside (command line, Vulkan and VMA answers, the clock) is collected in an
environment record; `main` is a pure function from that environment to the
observable run: what was inserted into `std::cout` and how much of it is sure to
have been flushed, which API calls were made, how the process ended, and the
contents of the destination buffer.

Platform conventions used by the embedding (LP64, as on every 64-bit target
Vulkan runs on): `int` and `std::int32_t` are 32-bit two's complement,
`std::size_t` and `VkDeviceSize` are 64-bit unsigned, `double` is IEEE-754
binary64 with round-to-nearest-even, the clock ticks in nanoseconds held in a
signed 64-bit count.  Whether `NDEBUG` is defined when `<cassert>` is included is
a parameter of the build, as are `__FILE__` and `__LINE__`.  Vulkan's error codes
are the negative values of `VkResult`; a call that returns one leaves its outputs
undefined, so an object that only that call would have given a value has none.
-/

namespace VkPerf

/-! ## Status codes (`VkResult`, from `vulkan_core.h`) -/

/-- The C enum `VkResult`; its enumerators are 32-bit signed integers. -/
abbrev VkResult := Int

abbrev VK_SUCCESS : VkResult := 0
abbrev VK_NOT_READY : VkResult := 1
abbrev VK_TIMEOUT : VkResult := 2
abbrev VK_EVENT_SET : VkResult := 3
abbrev VK_EVENT_RESET : VkResult := 4
abbrev VK_INCOMPLETE : VkResult := 5
abbrev VK_ERROR_OUT_OF_HOST_MEMORY : VkResult := -1
abbrev VK_ERROR_OUT_OF_DEVICE_MEMORY : VkResult := -2
abbrev VK_ERROR_INITIALIZATION_FAILED : VkResult := -3
abbrev VK_ERROR_DEVICE_LOST : VkResult := -4
abbrev VK_ERROR_MEMORY_MAP_FAILED : VkResult := -5
abbrev VK_ERROR_LAYER_NOT_PRESENT : VkResult := -6
abbrev VK_ERROR_EXTENSION_NOT_PRESENT : VkResult := -7
abbrev VK_ERROR_FEATURE_NOT_PRESENT : VkResult := -8
abbrev VK_ERROR_INCOMPATIBLE_DRIVER : VkResult := -9
abbrev VK_ERROR_TOO_MANY_OBJECTS : VkResult := -10
abbrev VK_ERROR_FORMAT_NOT_SUPPORTED : VkResult := -11
abbrev VK_ERROR_SURFACE_LOST_KHR : VkResult := -1000000000
abbrev VK_ERROR_NATIVE_WINDOW_IN_USE_KHR : VkResult := -1000000001
abbrev VK_SUBOPTIMAL_KHR : VkResult := 1000001003
abbrev VK_ERROR_OUT_OF_DATE_KHR : VkResult := -1000001004
abbrev VK_ERROR_INCOMPATIBLE_DISPLAY_KHR : VkResult := -1000003001
abbrev VK_ERROR_VALIDATION_FAILED_EXT : VkResult := -1000011001
abbrev VK_ERROR_INVALID_SHADER_NV : VkResult := -1000012000

/-- `errorString` (main.cpp lines 12-44): the `switch` over the 23 `STR(r)` cases,
each returning the stringised `r`, with `default: return "UNKNOWN_ERROR"`. -/
def errorString (errorCode : VkResult) : String :=
  if errorCode = VK_NOT_READY then "NOT_READY"
  else if errorCode = VK_TIMEOUT then "TIMEOUT"
  else if errorCode = VK_EVENT_SET then "EVENT_SET"
  else if errorCode = VK_EVENT_RESET then "EVENT_RESET"
  else if errorCode = VK_INCOMPLETE then "INCOMPLETE"
  else if errorCode = VK_ERROR_OUT_OF_HOST_MEMORY then "ERROR_OUT_OF_HOST_MEMORY"
  else if errorCode = VK_ERROR_OUT_OF_DEVICE_MEMORY then "ERROR_OUT_OF_DEVICE_MEMORY"
  else if errorCode = VK_ERROR_INITIALIZATION_FAILED then "ERROR_INITIALIZATION_FAILED"
  else if errorCode = VK_ERROR_DEVICE_LOST then "ERROR_DEVICE_LOST"
  else if errorCode = VK_ERROR_MEMORY_MAP_FAILED then "ERROR_MEMORY_MAP_FAILED"
  else if errorCode = VK_ERROR_LAYER_NOT_PRESENT then "ERROR_LAYER_NOT_PRESENT"
  else if errorCode = VK_ERROR_EXTENSION_NOT_PRESENT then "ERROR_EXTENSION_NOT_PRESENT"
  else if errorCode = VK_ERROR_FEATURE_NOT_PRESENT then "ERROR_FEATURE_NOT_PRESENT"
  else if errorCode = VK_ERROR_INCOMPATIBLE_DRIVER then "ERROR_INCOMPATIBLE_DRIVER"
  else if errorCode = VK_ERROR_TOO_MANY_OBJECTS then "ERROR_TOO_MANY_OBJECTS"
  else if errorCode = VK_ERROR_FORMAT_NOT_SUPPORTED then "ERROR_FORMAT_NOT_SUPPORTED"
  else if errorCode = VK_ERROR_SURFACE_LOST_KHR then "ERROR_SURFACE_LOST_KHR"
  else if errorCode = VK_ERROR_NATIVE_WINDOW_IN_USE_KHR then "ERROR_NATIVE_WINDOW_IN_USE_KHR"
  else if errorCode = VK_SUBOPTIMAL_KHR then "SUBOPTIMAL_KHR"
  else if errorCode = VK_ERROR_OUT_OF_DATE_KHR then "ERROR_OUT_OF_DATE_KHR"
  else if errorCode = VK_ERROR_INCOMPATIBLE_DISPLAY_KHR then "ERROR_INCOMPATIBLE_DISPLAY_KHR"
  else if errorCode = VK_ERROR_VALIDATION_FAILED_EXT then "ERROR_VALIDATION_FAILED_EXT"
  else if errorCode = VK_ERROR_INVALID_SHADER_NV then "ERROR_INVALID_SHADER_NV"
  else "UNKNOWN_ERROR"

/-- The enumerators that have a `case` in `errorString`, under their C identifier. -/
def listedResults : List (String × VkResult) :=
  [ ("VK_NOT_READY", VK_NOT_READY),
    ("VK_TIMEOUT", VK_TIMEOUT),
    ("VK_EVENT_SET", VK_EVENT_SET),
    ("VK_EVENT_RESET", VK_EVENT_RESET),
    ("VK_INCOMPLETE", VK_INCOMPLETE),
    ("VK_ERROR_OUT_OF_HOST_MEMORY", VK_ERROR_OUT_OF_HOST_MEMORY),
    ("VK_ERROR_OUT_OF_DEVICE_MEMORY", VK_ERROR_OUT_OF_DEVICE_MEMORY),
    ("VK_ERROR_INITIALIZATION_FAILED", VK_ERROR_INITIALIZATION_FAILED),
    ("VK_ERROR_DEVICE_LOST", VK_ERROR_DEVICE_LOST),
    ("VK_ERROR_MEMORY_MAP_FAILED", VK_ERROR_MEMORY_MAP_FAILED),
    ("VK_ERROR_LAYER_NOT_PRESENT", VK_ERROR_LAYER_NOT_PRESENT),
    ("VK_ERROR_EXTENSION_NOT_PRESENT", VK_ERROR_EXTENSION_NOT_PRESENT),
    ("VK_ERROR_FEATURE_NOT_PRESENT", VK_ERROR_FEATURE_NOT_PRESENT),
    ("VK_ERROR_INCOMPATIBLE_DRIVER", VK_ERROR_INCOMPATIBLE_DRIVER),
    ("VK_ERROR_TOO_MANY_OBJECTS", VK_ERROR_TOO_MANY_OBJECTS),
    ("VK_ERROR_FORMAT_NOT_SUPPORTED", VK_ERROR_FORMAT_NOT_SUPPORTED),
    ("VK_ERROR_SURFACE_LOST_KHR", VK_ERROR_SURFACE_LOST_KHR),
    ("VK_ERROR_NATIVE_WINDOW_IN_USE_KHR", VK_ERROR_NATIVE_WINDOW_IN_USE_KHR),
    ("VK_SUBOPTIMAL_KHR", VK_SUBOPTIMAL_KHR),
    ("VK_ERROR_OUT_OF_DATE_KHR", VK_ERROR_OUT_OF_DATE_KHR),
    ("VK_ERROR_INCOMPATIBLE_DISPLAY_KHR", VK_ERROR_INCOMPATIBLE_DISPLAY_KHR),
    ("VK_ERROR_VALIDATION_FAILED_EXT", VK_ERROR_VALIDATION_FAILED_EXT),
    ("VK_ERROR_INVALID_SHADER_NV", VK_ERROR_INVALID_SHADER_NV) ]

/-- The numeric values of the listed enumerators. -/
def listedCodes : List VkResult := listedResults.map Prod.snd

/-! ## C strings -/

/-- Byte-wise comparison of two NUL-terminated strings, the end of a string
comparing as the terminating 0. -/
def strcmpAux : List Char → List Char → Int
  | [], [] => 0
  | [], d :: _ => - (d.toNat : Int)
  | c :: _, [] => (c.toNat : Int)
  | c :: cs, d :: ds =>
    if c = d then strcmpAux cs ds else (c.toNat : Int) - (d.toNat : Int)

/-- `std::strcmp`. -/
def strcmp (a b : String) : Int := strcmpAux a.data b.data

/-- A C string holds no NUL character before its terminator. -/
def IsCStr (s : String) : Prop := ∀ c ∈ s.data, c ≠ Char.ofNat 0

instance (s : String) : Decidable (IsCStr s) := by
  unfold IsCStr; infer_instance

/-! ## IEEE-754 binary64 (`double`), round-to-nearest-even -/

/-- A binary64 datum: a finite number `(-1)^neg * m * 2^e` (zeros are `m = 0` and
keep their sign), an infinity, or a NaN. -/
inductive F64
  | finite (neg : Bool) (m : Nat) (e : Int)
  | inf (neg : Bool)
  | nan
  deriving DecidableEq, Repr

namespace F64

/-- Helper for `ilog2`: halve until below 2. -/
def ilog2Aux : Nat → Nat → Nat
  | 0, _ => 0
  | fuel + 1, n => if n < 2 then 0 else ilog2Aux fuel (n / 2) + 1

/-- The position of the leading bit: `floor (log2 n)` for `n ≥ 1`. -/
def ilog2 (n : Nat) : Nat := ilog2Aux n n

/-- The integer nearest to `a / b`, ties to even. -/
def roundNearestEven (a b : Nat) : Nat :=
  if 2 * (a % b) < b then a / b
  else if b < 2 * (a % b) then a / b + 1
  else if (a / b) % 2 = 0 then a / b else a / b + 1

/-- For `p, q ≥ 1`: `floor (log2 (p / q))`. -/
def floorLog2Ratio (p q : Nat) : Int :=
  let d : Int := (ilog2 p : Int) - (ilog2 q : Int)
  if q * 2 ^ d.toNat ≤ p * 2 ^ (-d).toNat then d else d - 1

/-- The correctly rounded binary64 value of the rational `(-1)^neg * p / q`:
53 significant bits, least exponent -1074 (subnormals), overflow to infinity.
With `e` the exponent of the last place, the significand is `p / (q * 2^e)`
rounded to an integer; a power of two with a negative exponent is moved to the
other side of the fraction (`Int.toNat` of a negative number is 0). -/
def round (neg : Bool) (p q : Nat) : F64 :=
  if p = 0 then finite neg 0 0
  else
    let e : Int := max (floorLog2Ratio p q - 52) (-1074)
    let m : Nat := roundNearestEven (p * 2 ^ (-e).toNat) (q * 2 ^ e.toNat)
    let m1 : Nat := if m = 2 ^ 53 then 2 ^ 52 else m
    let e1 : Int := if m = 2 ^ 53 then e + 1 else e
    if 971 < e1 then inf neg else finite neg m1 e1

/-- The correctly rounded value of `(-1)^neg * (a / b) * 2^k`. -/
def roundScaled (neg : Bool) (a b : Nat) (k : Int) : F64 :=
  round neg (a * 2 ^ k.toNat) (b * 2 ^ (-k).toNat)

/-- Conversion `uint64_t -> double`. -/
def ofNat (n : Nat) : F64 := round false n 1

/-- Conversion `int64_t -> double`. -/
def ofInt (i : Int) : F64 := round (decide (i < 0)) i.natAbs 1

/-- The literal `1E-6`. -/
def lit1Em6 : F64 := round false 1 1000000

/-- The operator `*` on `double`. -/
def mul : F64 → F64 → F64
  | nan, _ => nan
  | _, nan => nan
  | inf s, inf t => inf (xor s t)
  | inf s, finite t n _ => if n = 0 then nan else inf (xor s t)
  | finite s m _, inf t => if m = 0 then nan else inf (xor s t)
  | finite s m e, finite t n f =>
    if m = 0 ∨ n = 0 then finite (xor s t) 0 0 else roundScaled (xor s t) (m * n) 1 (e + f)

/-- The operator `/` on `double`. -/
def div : F64 → F64 → F64
  | nan, _ => nan
  | _, nan => nan
  | inf _, inf _ => nan
  | inf s, finite t _ _ => inf (xor s t)
  | finite s _ _, inf t => finite (xor s t) 0 0
  | finite s m e, finite t n f =>
    if n = 0 then (if m = 0 then nan else inf (xor s t))
    else if m = 0 then finite (xor s t) 0 0
    else roundScaled (xor s t) m n (e - f)

/-- The rational value of a finite datum (0 for infinities and NaN). -/
def toRat : F64 → ℚ
  | finite neg m e => (if neg then -1 else 1) * (m : ℚ) * (2 : ℚ) ^ e
  | _ => 0

/-- A finite datum, as opposed to an infinity or a NaN. -/
def isFinite : F64 → Bool
  | finite _ _ _ => true
  | _ => false

end F64

/-- The expression on main.cpp line 197,
`(allocationInfo.size * 1E-6) / (durationUs * 1E-6)`: `size` is a `VkDeviceSize`
(`uint64_t`) and `durationUs` a `std::chrono::microseconds::rep` (`int64_t`),
both converted to `double` by the usual arithmetic conversions. -/
def bandwidth (size : Nat) (durationUs : Int) : F64 :=
  F64.div (F64.mul (F64.ofNat size) F64.lit1Em6) (F64.mul (F64.ofInt durationUs) F64.lit1Em6)

/-! ## The copy strategies (main.cpp lines 176-189) -/

/-- `std::byte`. -/
abbrev Byte := Fin 256

/-- `std::memcpy(dest, src, n)`: the first `n` bytes of `dest` become the first `n`
bytes of `src`. -/
def memcpy : List Byte → List Byte → Nat → List Byte
  | _ :: ds, s :: ss, n + 1 => s :: memcpy ds ss n
  | dest, _, _ => dest

/-- Two's-complement wrap of an integer into the range of `std::int32_t`. -/
def wrapInt32 (x : Int) : Int := (x + 2 ^ 31) % 2 ^ 32 - 2 ^ 31

/-- Conversion of a (signed) integer to `std::size_t`: reduction modulo `2^64`. -/
def toSizeT (i : Int) : Nat := (i % 2 ^ 64).toNat

/-- `mapped[i]` for the pointer `mapped` and an `int` offset `i`; an offset outside
the mapping reads as 0. -/
def mappedAt (mapped : List Byte) (i : Int) : Byte :=
  if 0 ≤ i then mapped.getD i.toNat 0 else 0

/-- The state of the `dumb` loop: the index `i`, the destination vector `data`, and
two observations that are not program variables: the values `i` had when the body
ran, in order, and whether `i++` ever left the `std::int32_t` range. -/
structure LoopState where
  i : Int
  data : List Byte
  visited : List Int
  overflow : Bool

/-- One pass through the body and the increment, `data[i] = mapped[i]; i++`:
`data[i]` converts `i` to the vector's `size_type`, `mapped[i]` is pointer
arithmetic, and the increment wraps modulo `2^32`. -/
def dumbStep (mapped : List Byte) (s : LoopState) : LoopState :=
  { i := wrapInt32 (s.i + 1),
    data := s.data.set (toSizeT s.i) (mappedAt mapped s.i),
    visited := s.visited ++ [s.i],
    overflow := s.overflow || decide (2 ^ 31 - 1 < s.i + 1) }

/-- The loop `for (std::int32_t i = 0; i < data.size(); i++) data[i] = mapped[i];`
run for at most `fuel` evaluations of the condition, in which `i` is converted
to `std::size_t`.  `none`: the condition was still true when the fuel ran out. -/
def dumbLoop (size : Nat) (mapped : List Byte) : Nat → LoopState → Option LoopState
  | 0, _ => none
  | fuel + 1, s =>
    if toSizeT s.i < size then dumbLoop size mapped fuel (dumbStep mapped s) else some s

/-- The `dumb` strategy started at `i = 0` on the destination `data`, whose
`size()` is `size`. -/
def dumbCopy (fuel size : Nat) (mapped data : List Byte) : Option LoopState :=
  dumbLoop size mapped fuel { i := 0, data := data, visited := [], overflow := false }

/-! ## The environment and the observable run -/

/-- The six places where `main` wraps a call in `VK_CHECK_RESULT`. -/
inductive Site
  | createInstance
  | countPhysicalDevices
  | enumeratePhysicalDevices
  | createDevice
  | createAllocator
  | createBuffer
  deriving DecidableEq, Repr

/-- What the preprocessor substitutes: `__FILE__`, `__LINE__` at each use of
`VK_CHECK_RESULT`, and whether `NDEBUG` is defined, in which case `assert` expands
to nothing. -/
structure Build where
  file : String
  line : Site → Nat
  ndebug : Bool

/-- Everything the run obtains from outside the program. -/
structure Env where
  /-- status of `vkEnumerateInstanceLayerProperties(&instanceLayerCount, nullptr)` -/
  layerCountStatus : VkResult
  /-- the value that call stored in `instanceLayerCount` (stored only if it did not fail) -/
  instanceLayerCount : Nat
  /-- status of the second `vkEnumerateInstanceLayerProperties` call -/
  layerFillStatus : VkResult
  /-- the `layerName`s that call wrote, in order -/
  layerNames : List String
  /-- status of `vkCreateInstance` -/
  createInstance : VkResult
  /-- status of `vkEnumeratePhysicalDevices(instance, &deviceCount, nullptr)` -/
  deviceCountStatus : VkResult
  /-- the value `deviceCount` holds after that call -/
  deviceCount : Nat
  /-- status of the second `vkEnumeratePhysicalDevices` call -/
  deviceFillStatus : VkResult
  /-- the handles that call wrote, in order -/
  devices : List Nat
  /-- `deviceProperties.deviceName` of a physical device -/
  deviceName : Nat → String
  /-- status of `vkCreateDevice` -/
  createDevice : VkResult
  /-- status of `vmaCreateAllocator` -/
  createAllocator : VkResult
  /-- status of `vmaCreateBuffer` -/
  createBuffer : VkResult
  /-- `allocationInfo.size` -/
  allocSize : Nat
  /-- the bytes at `allocationInfo.pMappedData` -/
  mapped : List Byte
  /-- the two readings of `high_resolution_clock::now()`, in ticks since the epoch -/
  start : Nat
  stop : Nat

/-- A call into Vulkan or VMA, with the arguments that vary. -/
inductive ApiCall
  | enumerateInstanceLayerProperties
  | createInstance (validation : Bool)
  | enumeratePhysicalDevices
  | getPhysicalDeviceProperties (physicalDevice : Nat)
  | createDevice (physicalDevice : Nat)
  | createAllocator (physicalDevice : Nat)
  | createBuffer (size : Nat)
  deriving DecidableEq, Repr

/-- One insertion into `std::cout`: a piece of text, or the `double` of the
`Bandwidth` line (whose decimal rendering is left to the stream). -/
inductive Out
  | text (s : String)
  | real (v : F64)
  deriving DecidableEq, Repr

/-- How the process ends. -/
inductive Outcome
  /-- `main` returned this value -/
  | returned (code : Int)
  /-- `assert(res == VK_SUCCESS)` failed -/
  | aborted
  /-- the run reached an operation without defined behaviour: `physicalDevices[0]` on
  an empty vector, or the read of an object that was never given a value -/
  | undefined
  /-- the constructor of `std::vector` threw `std::length_error`, which nothing catches -/
  | terminated
  /-- the copy loop never ends -/
  | diverged
  deriving DecidableEq, Repr

/-- What can be observed of a run. `stdout` lists the insertions into `std::cout` in
order; `flushed` is the part of them that is sure to have left the stream buffer
when the run ends: everything up to the last `std::endl`, and everything when `main`
returns. Whether the rest reaches the output device is up to the implementation
(`abort` need not flush). `copyType` and `data` are the values of the variables of
that name when the run ends (`none` if not yet declared). -/
structure Run where
  stdout : List Out
  flushed : List Out
  calls : List ApiCall
  outcome : Outcome
  copyType : Option Int
  data : Option (List Byte)

/-- The line `VK_CHECK_RESULT` prints (main.cpp lines 50-51). -/
def fatalLine (b : Build) (site : Site) (res : VkResult) : Out :=
  .text ("Fatal : VkResult is \"" ++ errorString res ++ "\" in " ++ b.file ++ " at line "
    ++ toString (b.line site) ++ "\n")

/-- The macro `VK_CHECK_RESULT` (main.cpp lines 46-54) at `site` on the status `res`,
after `out` was inserted into `std::cout`: the insertions made so far once it is
through, and whether `assert(res == VK_SUCCESS)` ended the run. -/
def VK_CHECK_RESULT (b : Build) (site : Site) (res : VkResult) (out : List Out) :
    List Out × Bool :=
  if res ≠ VK_SUCCESS then (out ++ [fatalLine b site res], !b.ndebug) else (out, false)

/-- The array `validationLayers` (main.cpp line 90). -/
def validationLayers : List String := ["VK_LAYER_LUNARG_standard_validation"]

/-- A `std::vector` of `n` value-initialised elements after a call wrote `written`
into its storage from the front. -/
def filled {α : Type} (zero : α) (n : Nat) (written : List α) : List α :=
  (written ++ List.replicate n zero).take n

/-- The largest `n` for which `std::vector<std::byte>(n)` does not throw. -/
def vectorMaxSize : Nat := 2 ^ 63 - 1

/-- `duration_cast<microseconds>(end - start).count()`: the difference of the two
tick counts as a signed 64-bit number of nanoseconds, divided by 1000 with
truncation toward zero. -/
def durationUs (start stop : Nat) : Int :=
  Int.tdiv ((((stop : Int) - (start : Int)) + 2 ^ 63) % 2 ^ 64 - 2 ^ 63) 1000

/-- The `"Duration:  " << durationUs << " us\n"` insertion (main.cpp line 195). -/
def durationLine (us : Int) : Out := .text ("Duration:  " ++ toString us ++ " us\n")

/-- The performance test and the report (main.cpp lines 176-199), entered once the
buffer exists, with `flushed` the part of the output `out` that is flushed.
`data.size()` is the constructor argument `allocationInfo.size`. The `dumb` loop
is given `2^32` evaluations of its condition, one for each value an `int32_t` can
take. -/
def performanceTest (env : Env) (copyType : Int) (flushed out : List Out)
    (calls : List ApiCall) : Run :=
  let size := env.allocSize
  if vectorMaxSize < size then
    { stdout := out, flushed := flushed, calls := calls, outcome := .terminated,
      copyType := some copyType, data := none }
  else
    let data : List Byte := List.replicate size 0
    let referenceSrc : List Byte := List.replicate size 0
    let copied : Option (List Byte) :=
      if copyType = 0 then some (memcpy data env.mapped size)
      else if copyType = 1 then (dumbCopy (2 ^ 32) size env.mapped data).map LoopState.data
      else if copyType = -1 then some (memcpy data referenceSrc size)
      else some data
    match copied with
    | none =>
      { stdout := out, flushed := flushed, calls := calls, outcome := .diverged,
        copyType := some copyType, data := none }
    | some data1 =>
      let us := durationUs env.start env.stop
      let out := out ++ [durationLine us, .text "Bandwidth: ", .real (bandwidth size us),
        .text " MB/s\n"]
      { stdout := out, flushed := out, calls := calls, outcome := .returned 0,
        copyType := some copyType, data := some data1 }

/-- The Vulkan and VMA set-up (main.cpp lines 77-172), entered with the strategy
selected and its banner inserted and flushed by `std::endl`. The two layer queries
are made without a check. After each of the six `VK_CHECK_RESULT`s the run ends if
the assertion failed; if it goes on after an error, which it does when `NDEBUG` is
defined, it ends where the object that the failed call was to initialise is read. -/
def setup (b : Build) (env : Env) (copyType : Int) (banner : List Out) : Run :=
  let stop (out : List Out) (calls : List ApiCall) (o : Outcome) : Run :=
    { stdout := out, flushed := banner, calls := calls, outcome := o,
      copyType := some copyType, data := none }
  -- lines 93-94: the first layer query, whose status is discarded
  let calls : List ApiCall := [.enumerateInstanceLayerProperties]
  -- line 95 reads `instanceLayerCount`, declared without an initialiser
  if env.layerCountStatus < 0 then stop banner calls .undefined
  else
  let instanceLayers : List String := filled "" env.instanceLayerCount env.layerNames
  -- lines 96-97: the second layer query, whose status is discarded
  let calls := calls ++ [.enumerateInstanceLayerProperties]
  -- lines 99-112
  let layersAvailable : Bool :=
    validationLayers.all fun layerName =>
      instanceLayers.any fun instanceLayer => decide (strcmp instanceLayer layerName = 0)
  -- lines 121-122
  let calls := calls ++ [.createInstance layersAvailable]
  let chk := VK_CHECK_RESULT b .createInstance env.createInstance banner
  if chk.2 = true then stop chk.1 calls .aborted
  -- line 128 reads `instance`, declared without an initialiser
  else if env.createInstance < 0 then stop chk.1 calls .undefined
  else
  -- lines 127-128
  let calls := calls ++ [.enumeratePhysicalDevices]
  let chk := VK_CHECK_RESULT b .countPhysicalDevices env.deviceCountStatus chk.1
  if chk.2 = true then stop chk.1 calls .aborted
  else
  -- lines 129-131
  let physicalDevices : List Nat := filled 0 env.deviceCount env.devices
  let calls := calls ++ [.enumeratePhysicalDevices]
  let chk := VK_CHECK_RESULT b .enumeratePhysicalDevices env.deviceFillStatus chk.1
  if chk.2 = true then stop chk.1 calls .aborted
  else
  -- line 132
  match physicalDevices with
  | [] => stop chk.1 calls .undefined
  | physicalDevice :: _ =>
  -- lines 134-136
  let calls := calls ++ [.getPhysicalDeviceProperties physicalDevice]
  let out := chk.1 ++ [.text ("GPU: " ++ env.deviceName physicalDevice ++ "\n")]
  -- lines 143-145
  let calls := calls ++ [.createDevice physicalDevice]
  let chk := VK_CHECK_RESULT b .createDevice env.createDevice out
  if chk.2 = true then stop chk.1 calls .aborted
  -- line 152 reads `device`, declared without an initialiser
  else if env.createDevice < 0 then stop chk.1 calls .undefined
  else
  -- lines 149-155
  let calls := calls ++ [.createAllocator physicalDevice]
  let chk := VK_CHECK_RESULT b .createAllocator env.createAllocator chk.1
  if chk.2 = true then stop chk.1 calls .aborted
  -- line 170 reads `allocator`, declared without an initialiser
  else if env.createAllocator < 0 then stop chk.1 calls .undefined
  else
  -- lines 157-172
  let calls := calls ++ [.createBuffer (5 * 1024 * 1024)]
  let chk := VK_CHECK_RESULT b .createBuffer env.createBuffer chk.1
  if chk.2 = true then stop chk.1 calls .aborted
  -- line 176 reads `allocationInfo.size`, declared without an initialiser
  else if env.createBuffer < 0 then stop chk.1 calls .undefined
  else
    performanceTest env copyType banner chk.1 calls

/-- `main` (main.cpp lines 56-200). `argv` holds the `argc` argument strings, the
program name first. The banner ends with `std::endl`, which flushes it. -/
def main (b : Build) (env : Env) (argv : List String) : Run :=
  if argv.length ≠ 2 then
    { stdout := [.text "Missing arg\n"], flushed := [.text "Missing arg\n"], calls := [],
      outcome := .returned (-1), copyType := none, data := none }
  else
    let arg := argv.getD 1 ""
    if strcmp arg "memcpy" = 0 then
      setup b env 0 [.text "=== Using memcpy ===\n"]
    else if strcmp arg "dumb" = 0 then
      setup b env 1 [.text "=== Using dumb-copy ===\n"]
    else if strcmp arg "reference" = 0 then
      setup b env (-1) [.text "=== Using reference ===\n"]
    else
      { stdout := [.text "Unknown arg\n"], flushed := [.text "Unknown arg\n"], calls := [],
        outcome := .returned (-1), copyType := some 0, data := none }

/-- The text written to standard output, with the `double` of the `Bandwidth` line
shown by a caller-supplied rendering. -/
def render (fmt : F64 → String) : List Out → String
  | [] => ""
  | .text s :: rest => s ++ render fmt rest
  | .real v :: rest => fmt v ++ render fmt rest

/-- The three strategy banners (main.cpp lines 64, 67, 70). -/
def banners : List Out :=
  [.text "=== Using memcpy ===\n", .text "=== Using dumb-copy ===\n",
   .text "=== Using reference ===\n"]

/-- The two usage messages (main.cpp lines 58, 73). -/
def usageLines : List Out := [.text "Missing arg\n", .text "Unknown arg\n"]

/-- The selector tokens with the banner and the `copyType` value the specification
gives each. -/
def strategies : List (String × String × Int) :=
  [("memcpy", "=== Using memcpy ===\n", 0), ("dumb", "=== Using dumb-copy ===\n", 1),
   ("reference", "=== Using reference ===\n", -1)]

/-- An environment in which every call succeeds: one device, an allocation of exactly
5 MiB of zero bytes, 4 ms between the two clock readings. -/
def envTypical : Env :=
  { layerCountStatus := VK_SUCCESS, instanceLayerCount := 0, layerFillStatus := VK_SUCCESS,
    layerNames := [], createInstance := VK_SUCCESS, deviceCountStatus := VK_SUCCESS,
    deviceCount := 1, deviceFillStatus := VK_SUCCESS, devices := [1],
    deviceName := fun _ => "GPU0", createDevice := VK_SUCCESS, createAllocator := VK_SUCCESS,
    createBuffer := VK_SUCCESS, allocSize := 5242880,
    mapped := List.replicate 5242880 0, start := 1000, stop := 4001000 }

/-- As `envTypical`, but the set of layers grows between the two layer queries: the
first reports one layer, the second fills that one element and, a second layer
having been installed meanwhile, returns `VK_INCOMPLETE`. -/
def envLayerRace : Env :=
  { envTypical with
    instanceLayerCount := 1, layerFillStatus := VK_INCOMPLETE,
    layerNames := ["VK_LAYER_KHRONOS_validation"] }

/-- As `envTypical`, but the enumeration reports no physical device. -/
def envNoDevice : Env := { envTypical with deviceCount := 0, devices := [] }

/-- The number of Vulkan and VMA calls made up to and including the one checked at a
site. -/
def Site.callCount : Site → Nat
  | .createInstance => 3
  | .countPhysicalDevices => 4
  | .enumeratePhysicalDevices => 5
  | .createDevice => 7
  | .createAllocator => 8
  | .createBuffer => 9

/-- The call checked at a site. -/
def Site.isCall : Site → ApiCall → Bool
  | .createInstance, .createInstance _ => true
  | .countPhysicalDevices, .enumeratePhysicalDevices => true
  | .enumeratePhysicalDevices, .enumeratePhysicalDevices => true
  | .createDevice, .createDevice _ => true
  | .createAllocator, .createAllocator _ => true
  | .createBuffer, .createBuffer _ => true
  | _, _ => false

/-- The run `r` ended at the check of `site` on the status `st`: after the insertions
`before`, the fatal line is the last insertion, the process ends at the failed
assertion, the checked call is the last call made, and no copy took place. -/
def FatalStop (b : Build) (r : Run) (before : List Out) (site : Site) (st : VkResult) : Prop :=
  r.stdout = before ++ [fatalLine b site st] ∧ r.outcome = .aborted ∧ r.data = none ∧
  r.calls.length = site.callCount ∧ ∃ c, r.calls.getLast? = some c ∧ site.isCall c = true

/-- The `GPU:` line (main.cpp line 136). -/
def gpuLine (env : Env) (physicalDevice : Nat) : Out :=
  .text ("GPU: " ++ env.deviceName physicalDevice ++ "\n")

/-- A build with `assert` active: the file name and the lines at which the six checks
stand. -/
def buildAt : Build :=
  { file := "main.cpp", ndebug := false,
    line := fun s => match s with
      | .createInstance => 122
      | .countPhysicalDevices => 128
      | .enumeratePhysicalDevices => 130
      | .createDevice => 144
      | .createAllocator => 155
      | .createBuffer => 170 }

namespace F64

/-- The datum `x` is a positive normal number within relative distance `2^-53` of `r`. -/
def Near (x : F64) (r : ℚ) : Prop :=
  ∃ m e, x = finite false m e ∧ 2 ^ 52 ≤ m ∧ m < 2 ^ 53 ∧
    |(m : ℚ) * (2 : ℚ) ^ e - r| ≤ (2 : ℚ) ^ (-53 : Int) * r

end F64

/-- An insertion that is neither a banner nor a usage message. -/
def Plain (o : Out) : Prop := o ∉ banners ∧ o ∉ usageLines

/-! # Theorems -/

/-! ## `errorString` -/

/-- C9. `errorString` is total; each of the 23 enumerators with a `case` gives its
identifier without the `VK_` prefix; distinct listed codes give distinct strings;
the result is `"UNKNOWN_ERROR"` exactly for the codes without a `case`, among
them `VK_SUCCESS`. -/
theorem errorString_spec :
    listedResults.length = 23 ∧
    (∀ p ∈ listedResults, p.1.take 3 = "VK_" ∧ errorString p.2 = p.1.drop 3) ∧
    errorString VK_ERROR_OUT_OF_DEVICE_MEMORY = "ERROR_OUT_OF_DEVICE_MEMORY" ∧
    (∀ a ∈ listedCodes, ∀ b ∈ listedCodes, errorString a = errorString b → a = b) ∧
    (∀ c : VkResult, errorString c = "UNKNOWN_ERROR" ↔ c ∉ listedCodes) ∧
    errorString VK_SUCCESS = "UNKNOWN_ERROR" := by
  refine ⟨by decide, by decide, by decide, by decide, ?_, by decide⟩
  intro c
  constructor
  · intro h hc
    simp only [listedCodes, listedResults, List.map_cons, List.map_nil, List.mem_cons,
      List.mem_singleton, List.not_mem_nil, or_false] at hc
    rcases hc with h1 | h1 | h1 | h1 | h1 | h1 | h1 | h1 | h1 | h1 | h1 | h1 | h1 | h1 | h1 |
      h1 | h1 | h1 | h1 | h1 | h1 | h1 | h1 <;> subst h1 <;> revert h <;> decide
  · intro hc
    simp only [listedCodes, listedResults, List.map_cons, List.map_nil, List.mem_cons,
      List.mem_singleton, List.not_mem_nil, or_false, not_or] at hc
    obtain ⟨h1, h2, h3, h4, h5, h6, h7, h8, h9, h10, h11, h12, h13, h14, h15, h16, h17, h18,
      h19, h20, h21, h22, h23⟩ := hc
    simp only [errorString, h1, h2, h3, h4, h5, h6, h7, h8, h9, h10, h11, h12, h13, h14, h15,
      h16, h17, h18, h19, h20, h21, h22, h23, if_false]

/-! ## Argument dispatch -/

theorem strcmpAux_self (cs : List Char) : strcmpAux cs cs = 0 := by
  induction cs with
  | nil => rfl
  | cons c cs ih => simp [strcmpAux, ih]

theorem char_toNat_eq_zero {c : Char} (h : (c.toNat : Int) = 0) : c = Char.ofNat 0 := by
  have h0 : c.toNat = 0 := by exact_mod_cast h
  apply Char.ext
  apply UInt32.ext
  simpa [Char.toNat] using h0

theorem char_eq_of_toNat_sub {c d : Char} (h : (c.toNat : Int) - (d.toNat : Int) = 0) :
    c = d := by
  have h0 : c.toNat = d.toNat := by omega
  apply Char.ext
  apply UInt32.ext
  simpa [Char.toNat] using h0

theorem strcmpAux_eq_zero (cs : List Char) :
    ∀ ds : List Char, (∀ c ∈ cs, c ≠ Char.ofNat 0) → (∀ d ∈ ds, d ≠ Char.ofNat 0) →
      strcmpAux cs ds = 0 → cs = ds := by
  induction cs with
  | nil =>
    intro ds _ hd h
    cases ds with
    | nil => rfl
    | cons d ds =>
      simp only [strcmpAux, neg_eq_zero] at h
      exact absurd (char_toNat_eq_zero h) (hd d (List.mem_cons_self _ _))
  | cons c cs ih =>
    intro ds hc hd h
    cases ds with
    | nil =>
      simp only [strcmpAux] at h
      exact absurd (char_toNat_eq_zero h) (hc c (List.mem_cons_self _ _))
    | cons d ds =>
      simp only [strcmpAux] at h
      by_cases hcd : c = d
      · subst hcd
        simp only [if_true] at h
        rw [ih ds (fun x hx => hc x (List.mem_cons_of_mem _ hx))
          (fun x hx => hd x (List.mem_cons_of_mem _ hx)) h]
      · simp only [hcd, if_false] at h
        exact absurd (char_eq_of_toNat_sub h) hcd

/-- On C strings `strcmp` returns 0 exactly for equal strings. -/
theorem strcmp_eq_zero_iff (a b : String) (ha : IsCStr a) (hb : IsCStr b) :
    strcmp a b = 0 ↔ a = b := by
  constructor
  · intro h
    have := strcmpAux_eq_zero a.data b.data ha hb h
    exact String.ext this
  · rintro rfl
    exact strcmpAux_self _


theorem plain_of_head (s : String) (c : Char) (hs : s.data.head? = some c)
    (h1 : c ≠ '=') (h2 : c ≠ 'M') (h3 : c ≠ 'U') : Plain (.text s) := by
  have key : ∀ t : String, t.data.head? ≠ some c → Out.text s ≠ Out.text t := by
    intro t ht h
    injection h with h
    rw [h] at hs
    exact ht hs
  have e1 : ∀ d : Char, d ≠ c → (some d : Option Char) ≠ some c := by
    intro d hd h
    injection h with h
    exact hd h
  constructor
  · intro h
    simp only [banners, List.mem_cons, List.mem_singleton, List.not_mem_nil, or_false] at h
    rcases h with h | h | h
    · exact key "=== Using memcpy ===\n" (e1 '=' (Ne.symm h1)) h
    · exact key "=== Using dumb-copy ===\n" (e1 '=' (Ne.symm h1)) h
    · exact key "=== Using reference ===\n" (e1 '=' (Ne.symm h1)) h
  · intro h
    simp only [usageLines, List.mem_cons, List.mem_singleton, List.not_mem_nil, or_false] at h
    rcases h with h | h
    · exact key "Missing arg\n" (e1 'M' (Ne.symm h2)) h
    · exact key "Unknown arg\n" (e1 'U' (Ne.symm h3)) h

theorem plain_fatalLine (b : Build) (site : Site) (res : VkResult) :
    Plain (fatalLine b site res) := by
  unfold fatalLine
  refine plain_of_head _ 'F' ?_ (by decide) (by decide) (by decide)
  simp [String.data_append]

theorem plain_gpu (name : String) : Plain (.text ("GPU: " ++ name ++ "\n")) := by
  refine plain_of_head _ 'G' ?_ (by decide) (by decide) (by decide)
  simp [String.data_append]

theorem plain_duration (us : Int) : Plain (durationLine us) := by
  unfold durationLine
  refine plain_of_head _ 'D' ?_ (by decide) (by decide) (by decide)
  simp [String.data_append]

theorem plain_real (v : F64) : Plain (.real v) := by
  constructor <;> intro h <;>
    simp [banners, usageLines] at h

theorem plain_bandwidth : Plain (.text "Bandwidth: ") ∧ Plain (.text " MB/s\n") := by
  constructor
  · exact plain_of_head _ 'B' rfl (by decide) (by decide) (by decide)
  · exact plain_of_head _ ' ' rfl (by decide) (by decide) (by decide)

theorem ext_refl (out : List Out) : ∃ rest, out = out ++ rest ∧ ∀ o ∈ rest, Plain o :=
  ⟨[], by simp, by simp⟩

theorem ext_snoc {out x : List Out} (o : Out) (ho : Plain o)
    (h : ∃ rest, x = out ++ rest ∧ ∀ o ∈ rest, Plain o) :
    ∃ rest, x ++ [o] = out ++ rest ∧ ∀ o ∈ rest, Plain o := by
  obtain ⟨rest, h1, h2⟩ := h
  refine ⟨rest ++ [o], by rw [h1, List.append_assoc], ?_⟩
  intro y hy
  rw [List.mem_append, List.mem_singleton] at hy
  rcases hy with hy | rfl
  · exact h2 y hy
  · exact ho

/-- What `VK_CHECK_RESULT` inserts is appended to what was inserted before, and is
plain. -/
theorem ext_check (b : Build) (site : Site) (res : VkResult) {out x : List Out}
    (h : ∃ rest, x = out ++ rest ∧ ∀ o ∈ rest, Plain o) :
    ∃ rest, (VK_CHECK_RESULT b site res x).1 = out ++ rest ∧ ∀ o ∈ rest, Plain o := by
  unfold VK_CHECK_RESULT
  split
  · exact ext_snoc _ (plain_fatalLine b site res) h
  · exact h

/-- What `performanceTest` inserts is appended to what was inserted before, and is
plain. -/
theorem performanceTest_stdout (env : Env) (ct : Int) (fl : List Out) {out x : List Out}
    (calls : List ApiCall) (h : ∃ rest, x = out ++ rest ∧ ∀ o ∈ rest, Plain o) :
    ∃ rest, (performanceTest env ct fl x calls).stdout = out ++ rest ∧
      ∀ o ∈ rest, Plain o := by
  unfold performanceTest
  by_cases hv : vectorMaxSize < env.allocSize
  · simpa [hv] using h
  · simp only [hv, if_false]
    split
    · exact h
    · obtain ⟨rest, h1, h2⟩ := ext_snoc _ plain_bandwidth.2 (ext_snoc _ (plain_real
        (bandwidth env.allocSize (durationUs env.start env.stop)))
        (ext_snoc _ plain_bandwidth.1
          (ext_snoc _ (plain_duration (durationUs env.start env.stop)) h)))
      exact ⟨rest, by simpa using h1, h2⟩

theorem performanceTest_copyType (env : Env) (ct : Int) (fl out : List Out)
    (calls : List ApiCall) : (performanceTest env ct fl out calls).copyType = some ct := by
  unfold performanceTest
  by_cases hv : vectorMaxSize < env.allocSize
  · simp [hv]
  · simp only [hv, if_false]
    split <;> rfl

/-- Every run of `setup` is either a run that stopped in the set-up, with no copy
made and only the banner flushed, or a run of the performance test; either way what
was inserted by then is the banner followed by plain insertions. -/
theorem setup_cases (b : Build) (env : Env) (ct : Int) (banner : List Out) (P : Run → Prop)
    (hstop : ∀ out calls o, (∃ rest, out = banner ++ rest ∧ ∀ x ∈ rest, Plain x) →
      P { stdout := out, flushed := banner, calls := calls, outcome := o,
          copyType := some ct, data := none })
    (hperf : ∀ out calls, (∃ rest, out = banner ++ rest ∧ ∀ x ∈ rest, Plain x) →
      P (performanceTest env ct banner out calls)) :
    P (setup b env ct banner) := by
  have e0 := ext_refl banner
  have e1 := ext_check b .createInstance env.createInstance e0
  have e2 := ext_check b .countPhysicalDevices env.deviceCountStatus e1
  have e3 := ext_check b .enumeratePhysicalDevices env.deviceFillStatus e2
  unfold setup
  simp only []
  by_cases h0 : env.layerCountStatus < 0
  · rw [if_pos h0]; exact hstop _ _ _ e0
  rw [if_neg h0]
  by_cases h1 : (VK_CHECK_RESULT b .createInstance env.createInstance banner).2 = true
  · rw [if_pos h1]; exact hstop _ _ _ e1
  rw [if_neg h1]
  by_cases h1' : env.createInstance < 0
  · rw [if_pos h1']; exact hstop _ _ _ e1
  rw [if_neg h1']
  by_cases h2 : (VK_CHECK_RESULT b .countPhysicalDevices env.deviceCountStatus
      (VK_CHECK_RESULT b .createInstance env.createInstance banner).1).2 = true
  · rw [if_pos h2]; exact hstop _ _ _ e2
  rw [if_neg h2]
  by_cases h3 : (VK_CHECK_RESULT b .enumeratePhysicalDevices env.deviceFillStatus
      (VK_CHECK_RESULT b .countPhysicalDevices env.deviceCountStatus
        (VK_CHECK_RESULT b .createInstance env.createInstance banner).1).1).2 = true
  · rw [if_pos h3]; exact hstop _ _ _ e3
  rw [if_neg h3]
  generalize filled 0 env.deviceCount env.devices = pds
  cases pds with
  | nil => exact hstop _ _ _ e3
  | cons pd tl =>
    have e4 := ext_snoc (.text ("GPU: " ++ env.deviceName pd ++ "\n")) (plain_gpu _) e3
    have e5 := ext_check b .createDevice env.createDevice e4
    have e6 := ext_check b .createAllocator env.createAllocator e5
    have e7 := ext_check b .createBuffer env.createBuffer e6
    dsimp only
    generalize (VK_CHECK_RESULT b .enumeratePhysicalDevices env.deviceFillStatus
      (VK_CHECK_RESULT b .countPhysicalDevices env.deviceCountStatus
        (VK_CHECK_RESULT b .createInstance env.createInstance banner).1).1).1 ++
        [.text ("GPU: " ++ env.deviceName pd ++ "\n")] = out4 at e4 e5 e6 e7 ⊢
    by_cases h5 : (VK_CHECK_RESULT b .createDevice env.createDevice out4).2 = true
    · rw [if_pos h5]; exact hstop _ _ _ e5
    rw [if_neg h5]
    by_cases h5' : env.createDevice < 0
    · rw [if_pos h5']; exact hstop _ _ _ e5
    rw [if_neg h5']
    by_cases h6 : (VK_CHECK_RESULT b .createAllocator env.createAllocator
        (VK_CHECK_RESULT b .createDevice env.createDevice out4).1).2 = true
    · rw [if_pos h6]; exact hstop _ _ _ e6
    rw [if_neg h6]
    by_cases h6' : env.createAllocator < 0
    · rw [if_pos h6']; exact hstop _ _ _ e6
    rw [if_neg h6']
    by_cases h7 : (VK_CHECK_RESULT b .createBuffer env.createBuffer
        (VK_CHECK_RESULT b .createAllocator env.createAllocator
          (VK_CHECK_RESULT b .createDevice env.createDevice out4).1).1).2 = true
    · rw [if_pos h7]; exact hstop _ _ _ e7
    rw [if_neg h7]
    by_cases h7' : env.createBuffer < 0
    · rw [if_pos h7']; exact hstop _ _ _ e7
    rw [if_neg h7']
    exact hperf _ _ e7

/-- What `setup` inserts is appended to the banner, and is plain. -/
theorem setup_stdout (b : Build) (env : Env) (ct : Int) (out : List Out) :
    ∃ rest, (setup b env ct out).stdout = out ++ rest ∧
      (∀ o ∈ rest, Plain o) ∧ (setup b env ct out).copyType = some ct := by
  apply setup_cases b env ct out
    (fun r => ∃ rest, r.stdout = out ++ rest ∧ (∀ o ∈ rest, Plain o) ∧ r.copyType = some ct)
  · rintro o calls oc ⟨rest, h1, h2⟩
    exact ⟨rest, h1, h2, rfl⟩
  · intro o calls h
    obtain ⟨rest, h1, h2⟩ := performanceTest_stdout env ct out calls h
    exact ⟨rest, h1, h2, performanceTest_copyType _ _ _ _ _⟩

theorem main_memcpy (b : Build) (env : Env) (prog : String) :
    main b env [prog, "memcpy"] = setup b env 0 [.text "=== Using memcpy ===\n"] := by
  have h : strcmp "memcpy" "memcpy" = 0 := by decide
  simp [main, h]

theorem main_dumb (b : Build) (env : Env) (prog : String) :
    main b env [prog, "dumb"] = setup b env 1 [.text "=== Using dumb-copy ===\n"] := by
  have h1 : strcmp "dumb" "memcpy" ≠ 0 := by decide
  have h : strcmp "dumb" "dumb" = 0 := by decide
  simp [main, h, h1]

theorem main_reference (b : Build) (env : Env) (prog : String) :
    main b env [prog, "reference"] = setup b env (-1) [.text "=== Using reference ===\n"] := by
  have h1 : strcmp "reference" "memcpy" ≠ 0 := by decide
  have h2 : strcmp "reference" "dumb" ≠ 0 := by decide
  have h : strcmp "reference" "reference" = 0 := by decide
  simp [main, h, h1, h2]

/-- A run of `setup` entered with one banner printed shows that banner once, no
other banner and no usage message. -/
theorem setup_banner_once (b : Build) (env : Env) (ct : Int) (banner : Out)
    (hb : banner ∈ banners) (hu : banner ∉ usageLines) :
    (setup b env ct [banner]).copyType = some ct ∧
    (setup b env ct [banner]).stdout.filter (fun o => decide (o ∈ banners)) = [banner] ∧
    (∀ u ∈ usageLines, u ∉ (setup b env ct [banner]).stdout) := by
  obtain ⟨rest, h1, h2, h3⟩ := setup_stdout b env ct [banner]
  refine ⟨h3, ?_, ?_⟩
  · rw [h1, List.filter_append]
    have e1 : [banner].filter (fun o => decide (o ∈ banners)) = [banner] := by
      simp [List.filter, hb]
    have e2 : rest.filter (fun o => decide (o ∈ banners)) = [] := by
      rw [List.filter_eq_nil_iff]
      intro o ho
      simpa using (h2 o ho).1
    rw [e1, e2]; rfl
  · intro u hu' hmem
    rw [h1, List.mem_append, List.mem_singleton] at hmem
    rcases hmem with rfl | hmem
    · exact hu hu'
    · exact (h2 u hmem).2 hu'

/-- C1. With exactly one argument equal to `memcpy`, `dumb` or `reference`, `main`
prints the banner of that token exactly once and no other banner, selects
`copyType` 0, 1, -1 respectively, and prints neither `Missing arg` nor
`Unknown arg`; the three banners are pairwise distinct and so are the three
codes. -/
theorem main_selects_strategy (b : Build) (env : Env) (prog : String) :
    (∀ t ∈ strategies,
      (main b env [prog, t.1]).copyType = some t.2.2 ∧
      (main b env [prog, t.1]).stdout.filter (fun o => decide (o ∈ banners)) = [.text t.2.1] ∧
      (∀ u ∈ usageLines, u ∉ (main b env [prog, t.1]).stdout)) ∧
    (strategies.map fun t => t.2.1).Nodup ∧ (strategies.map fun t => t.2.2).Nodup := by
  refine ⟨?_, by decide, by decide⟩
  intro t ht
  simp only [strategies, List.mem_cons, List.mem_singleton, List.not_mem_nil, or_false] at ht
  rcases ht with rfl | rfl | rfl
  · rw [main_memcpy]
    exact setup_banner_once b env 0 _ (by decide) (by decide)
  · rw [main_dumb]
    exact setup_banner_once b env 1 _ (by decide) (by decide)
  · rw [main_reference]
    exact setup_banner_once b env (-1) _ (by decide) (by decide)

/-- C2. With exactly one argument that is none of the three tokens, the whole output
is `Unknown arg`, `main` returns -1, and no Vulkan or VMA call is made. -/
theorem main_unknown_arg (b : Build) (env : Env) (prog arg : String) (hc : IsCStr arg)
    (h1 : arg ≠ "memcpy") (h2 : arg ≠ "dumb") (h3 : arg ≠ "reference") :
    (main b env [prog, arg]).stdout = [.text "Unknown arg\n"] ∧
    (∀ fmt, render fmt (main b env [prog, arg]).stdout = "Unknown arg\n") ∧
    (main b env [prog, arg]).outcome = .returned (-1) ∧
    (main b env [prog, arg]).calls = [] ∧
    (main b env [prog, arg]).data = none := by
  have e1 : strcmp arg "memcpy" ≠ 0 :=
    fun h => h1 ((strcmp_eq_zero_iff _ _ hc (by decide)).1 h)
  have e2 : strcmp arg "dumb" ≠ 0 :=
    fun h => h2 ((strcmp_eq_zero_iff _ _ hc (by decide)).1 h)
  have e3 : strcmp arg "reference" ≠ 0 :=
    fun h => h3 ((strcmp_eq_zero_iff _ _ hc (by decide)).1 h)
  have hm : main b env [prog, arg] =
      { stdout := [.text "Unknown arg\n"], flushed := [.text "Unknown arg\n"], calls := [],
        outcome := .returned (-1), copyType := some 0, data := none } := by
    simp [main, e1, e2, e3]
  rw [hm]
  exact ⟨rfl, fun _ => by simp [render], rfl, rfl, rfl⟩

/-- The empty string, a case variant and a token followed by more characters are
C strings other than the three tokens, and are answered with `Unknown arg`. -/
theorem main_unknown_arg_witness :
    (IsCStr "" ∧ "" ≠ "memcpy" ∧ "" ≠ "dumb" ∧ "" ≠ "reference" ∧
      (main buildAt envTypical ["prog", ""]).stdout = [.text "Unknown arg\n"] ∧
      (main buildAt envTypical ["prog", ""]).outcome = .returned (-1)) ∧
    (IsCStr "Memcpy" ∧ "Memcpy" ≠ "memcpy" ∧ "Memcpy" ≠ "dumb" ∧ "Memcpy" ≠ "reference" ∧
      (main buildAt envTypical ["prog", "Memcpy"]).stdout = [.text "Unknown arg\n"] ∧
      (main buildAt envTypical ["prog", "Memcpy"]).outcome = .returned (-1)) ∧
    (IsCStr "memcpy2" ∧ "memcpy2" ≠ "memcpy" ∧ "memcpy2" ≠ "dumb" ∧ "memcpy2" ≠ "reference" ∧
      (main buildAt envTypical ["prog", "memcpy2"]).stdout = [.text "Unknown arg\n"] ∧
      (main buildAt envTypical ["prog", "memcpy2"]).outcome = .returned (-1)) :=
  ⟨⟨by decide, by decide, by decide, by decide,
      (main_unknown_arg buildAt envTypical "prog" "" (by decide) (by decide) (by decide)
        (by decide)).1,
      (main_unknown_arg buildAt envTypical "prog" "" (by decide) (by decide) (by decide)
        (by decide)).2.2.1⟩,
   ⟨by decide, by decide, by decide, by decide,
      (main_unknown_arg buildAt envTypical "prog" "Memcpy" (by decide) (by decide) (by decide)
        (by decide)).1,
      (main_unknown_arg buildAt envTypical "prog" "Memcpy" (by decide) (by decide) (by decide)
        (by decide)).2.2.1⟩,
   ⟨by decide, by decide, by decide, by decide,
      (main_unknown_arg buildAt envTypical "prog" "memcpy2" (by decide) (by decide) (by decide)
        (by decide)).1,
      (main_unknown_arg buildAt envTypical "prog" "memcpy2" (by decide) (by decide) (by decide)
        (by decide)).2.2.1⟩⟩

/-- C3. With `argc != 2`, whatever the arguments, the whole output is `Missing arg`,
`main` returns -1, no banner is printed and no Vulkan or VMA call is made. -/
theorem main_missing_arg (b : Build) (env : Env) (argv : List String)
    (h : argv.length ≠ 2) :
    (main b env argv).stdout = [.text "Missing arg\n"] ∧
    (∀ fmt, render fmt (main b env argv).stdout = "Missing arg\n") ∧
    (main b env argv).outcome = .returned (-1) ∧
    (∀ o ∈ banners, o ∉ (main b env argv).stdout) ∧
    (main b env argv).calls = [] ∧
    (main b env argv).data = none := by
  have hm : main b env argv =
      { stdout := [.text "Missing arg\n"], flushed := [.text "Missing arg\n"], calls := [],
        outcome := .returned (-1), copyType := none, data := none } := by
    simp [main, h]
  rw [hm]
  exact ⟨rfl, fun _ => by simp [render], rfl, by decide, rfl, rfl⟩

/-- No argument, and two arguments of which the first is a recognised token. -/
theorem main_missing_arg_witness :
    (["prog"].length ≠ 2 ∧
      (main buildAt envTypical ["prog"]).stdout = [.text "Missing arg\n"] ∧
      (main buildAt envTypical ["prog"]).outcome = .returned (-1)) ∧
    (["prog", "memcpy", "dumb"].length ≠ 2 ∧
      (main buildAt envTypical ["prog", "memcpy", "dumb"]).stdout = [.text "Missing arg\n"] ∧
      (main buildAt envTypical ["prog", "memcpy", "dumb"]).outcome = .returned (-1)) :=
  ⟨⟨by decide, (main_missing_arg buildAt envTypical ["prog"] (by decide)).1,
      (main_missing_arg buildAt envTypical ["prog"] (by decide)).2.2.1⟩,
   ⟨by decide, (main_missing_arg buildAt envTypical ["prog", "memcpy", "dumb"] (by decide)).1,
      (main_missing_arg buildAt envTypical ["prog", "memcpy", "dumb"] (by decide)).2.2.1⟩⟩

/-! ## The `dumb` loop -/

theorem wrapInt32_of_range (x : Int) (h1 : -2 ^ 31 ≤ x) (h2 : x ≤ 2 ^ 31 - 1) :
    wrapInt32 x = x := by
  unfold wrapInt32; omega

theorem wrapInt32_max : wrapInt32 (((2 ^ 31 - 1 : Nat) : Int) + 1) = -2 ^ 31 := by
  unfold wrapInt32; omega

theorem toSizeT_natCast (k : Nat) (h : k < 2 ^ 64) : toSizeT (k : Int) = k := by
  unfold toSizeT; omega

theorem toSizeT_min : toSizeT (-2 ^ 31) = 2 ^ 64 - 2 ^ 31 := by
  unfold toSizeT; omega

theorem set_take_drop {α : Type} (l m : List α) (k : Nat) (d : α) (h : k < l.length)
    (hm : k < m.length) :
    (m.take k ++ l.drop k).set k (m.getD k d) = m.take (k + 1) ++ l.drop (k + 1) := by
  have hk : (m.take k).length = k := by simp; omega
  rw [List.set_append]
  simp only [hk, lt_self_iff_false, if_false, Nat.sub_self]
  rw [List.drop_eq_getElem_cons h, List.set_cons_zero, List.take_succ,
    List.getElem?_eq_getElem hm, List.getD_eq_getElem?_getD, List.getElem?_eq_getElem hm]
  simp only [Option.toList, Option.getD_some, List.append_assoc, List.singleton_append]

/-- While the condition holds, `k` evaluations of it cost `k` units of fuel and apply
the body `k` times. -/
theorem dumbLoop_iterate (size : Nat) (mapped : List Byte) :
    ∀ (k fuel : Nat) (s : LoopState),
      (∀ j < k, toSizeT ((dumbStep mapped)^[j] s).i < size) →
      dumbLoop size mapped (fuel + k) s =
        dumbLoop size mapped fuel ((dumbStep mapped)^[k] s) := by
  intro k
  induction k with
  | zero => intro fuel s _; rfl
  | succ k ih =>
    intro fuel s h
    have h0 : toSizeT s.i < size := h 0 (Nat.succ_pos k)
    have hstep : dumbLoop size mapped (fuel + k + 1) s =
        dumbLoop size mapped (fuel + k) (dumbStep mapped s) := by
      rw [dumbLoop, if_pos h0]
    rw [← Nat.add_assoc, hstep, ih fuel (dumbStep mapped s), Function.iterate_succ_apply]
    intro j hj
    have := h (j + 1) (Nat.succ_lt_succ hj)
    rwa [Function.iterate_succ_apply] at this

/-- When the condition fails, the loop ends in the current state. -/
theorem dumbLoop_exit (size : Nat) (mapped : List Byte) (fuel : Nat) (s : LoopState)
    (h : ¬ toSizeT s.i < size) : dumbLoop size mapped (fuel + 1) s = some s := by
  rw [dumbLoop, if_neg h]

/-- The index, the visited indices and the overflow flag after `k` passes started at
`i = 0`, as long as `i` has not passed `INT32_MAX`. -/
theorem iterate_index (mapped data : List Byte) :
    ∀ k : Nat, k ≤ 2 ^ 31 - 1 →
      ((dumbStep mapped)^[k] ⟨0, data, [], false⟩).i = (k : Int) ∧
      ((dumbStep mapped)^[k] ⟨0, data, [], false⟩).visited = (List.range k).map Int.ofNat ∧
      ((dumbStep mapped)^[k] ⟨0, data, [], false⟩).overflow = false := by
  intro k
  induction k with
  | zero => intro _; exact ⟨rfl, rfl, rfl⟩
  | succ k ih =>
    intro hk
    obtain ⟨h1, h2, h3⟩ := ih (by omega)
    rw [Function.iterate_succ_apply']
    refine ⟨?_, ?_, ?_⟩
    · show wrapInt32 (_ + 1) = _
      rw [h1, wrapInt32_of_range _ (by omega) (by omega)]
      push_cast; rfl
    · show _ ++ [_] = _
      rw [h1, h2, List.range_succ, List.map_append]; rfl
    · show (_ || decide (2 ^ 31 - 1 < _ + 1)) = false
      rw [h1, h3]
      have : ¬ ((2 : Int) ^ 31 - 1 < (k : Int) + 1) := by omega
      rw [decide_eq_false this]; rfl

/-- The destination after `k` passes started at `i = 0`. -/
theorem iterate_data (mapped data : List Byte) :
    ∀ k : Nat, k ≤ 2 ^ 31 → k ≤ data.length → k ≤ mapped.length →
      ((dumbStep mapped)^[k] ⟨0, data, [], false⟩).data = mapped.take k ++ data.drop k := by
  intro k
  induction k with
  | zero => intro _ _ _; rfl
  | succ k ih =>
    intro hk hd hm
    have h1 := (iterate_index mapped data k (by omega)).1
    rw [Function.iterate_succ_apply']
    show List.set _ (toSizeT _) (mappedAt mapped _) = _
    rw [h1, ih (by omega) (by omega) (by omega), toSizeT_natCast k (by omega)]
    have hm' : mappedAt mapped (k : Int) = mapped.getD k 0 := by
      unfold mappedAt
      rw [if_pos (by omega), Int.toNat_ofNat]
    rw [hm']
    exact set_take_drop data mapped k 0 (by omega) (by omega)

/-- The pass that starts at `i = INT32_MAX`: the increment overflows and wraps. -/
theorem iterate_last (mapped data : List Byte) (k : Nat) (hk : k = 2 ^ 31) :
    ((dumbStep mapped)^[k] ⟨0, data, [], false⟩).i = -2 ^ 31 ∧
    ((dumbStep mapped)^[k] ⟨0, data, [], false⟩).visited = (List.range k).map Int.ofNat ∧
    ((dumbStep mapped)^[k] ⟨0, data, [], false⟩).overflow = true := by
  obtain ⟨j, rfl⟩ : ∃ j, k = j + 1 := ⟨2 ^ 31 - 1, by omega⟩
  have hj : j = 2 ^ 31 - 1 := by omega
  obtain ⟨h1, h2, h3⟩ := iterate_index mapped data j (by omega)
  rw [Function.iterate_succ_apply']
  refine ⟨?_, ?_, ?_⟩
  · show wrapInt32 (_ + 1) = _
    rw [h1, hj]
    exact wrapInt32_max
  · show _ ++ [_] = _
    rw [h1, h2, List.range_succ, List.map_append]; rfl
  · show (_ || decide (2 ^ 31 - 1 < _ + 1)) = true
    rw [h1, h3]
    have : ((2 : Int) ^ 31 - 1 < (j : Int) + 1) := by omega
    rw [decide_eq_true this]; rfl

/-- Below `2^31` bytes the loop ends after `size` passes. -/
theorem dumbCopy_small (fuel size : Nat) (mapped data : List Byte)
    (hs : size < 2 ^ 31) (hf : size < fuel) :
    dumbCopy fuel size mapped data = some ((dumbStep mapped)^[size] ⟨0, data, [], false⟩) := by
  obtain ⟨f, rfl⟩ : ∃ f, fuel = f + 1 + size := ⟨fuel - 1 - size, by omega⟩
  unfold dumbCopy
  rw [dumbLoop_iterate size mapped size (f + 1)]
  · apply dumbLoop_exit
    rw [(iterate_index mapped data size (by omega)).1, toSizeT_natCast size (by omega)]
    omega
  · intro j hj
    rw [(iterate_index mapped data j (by omega)).1, toSizeT_natCast j (by omega)]
    exact hj

/-- From `2^31` bytes on (up to `2^64 - 2^31`) the loop ends after `2^31` passes, when the
wrapped index converts to a `size_t` that is not below `size`. -/
theorem dumbCopy_large (fuel size k : Nat) (mapped data : List Byte) (hk : k = 2 ^ 31)
    (hs : 2 ^ 31 ≤ size) (hs' : size ≤ 2 ^ 64 - 2 ^ 31) (hf : 2 ^ 31 < fuel) :
    dumbCopy fuel size mapped data = some ((dumbStep mapped)^[k] ⟨0, data, [], false⟩) := by
  obtain ⟨f, rfl⟩ : ∃ f, fuel = f + 1 + k := ⟨fuel - 1 - k, by omega⟩
  unfold dumbCopy
  rw [dumbLoop_iterate size mapped k (f + 1)]
  · apply dumbLoop_exit
    rw [(iterate_last mapped data k hk).1, toSizeT_min]
    omega
  · intro j hj
    rw [(iterate_index mapped data j (by omega)).1, toSizeT_natCast j (by omega)]
    omega

theorem memcpy_eq (n : Nat) :
    ∀ dest src : List Byte, n ≤ dest.length → n ≤ src.length →
      memcpy dest src n = src.take n ++ dest.drop n := by
  induction n with
  | zero =>
    intro dest src _ _
    cases dest <;> cases src <;> rfl
  | succ n ih =>
    intro dest src hd hs
    cases dest with
    | nil => simp at hd
    | cons d ds =>
      cases src with
      | nil => simp at hs
      | cons x xs =>
        simp only [List.length_cons, Nat.add_le_add_iff_right] at hd hs
        show x :: memcpy ds xs n = _
        rw [ih ds xs hd hs]; rfl

/-- `memcpy` of the whole destination gives the source. -/
theorem memcpy_full (n : Nat) (dest src : List Byte) (hd : dest.length = n)
    (hs : src.length = n) : memcpy dest src n = src := by
  rw [memcpy_eq n dest src (by omega) (by omega), List.take_of_length_le (by omega),
    List.drop_of_length_le (by omega), List.append_nil]

/-- The `dumb` loop on a vector of `size` bytes, `size` at most `max_size()`: it ends after
`min size 2^31` passes over the indices `0, 1, ...` in ascending order; `i++` overflows
exactly when `2^31 <= size`; the bytes below `min size 2^31` are copied, the others
are left as they were. -/
theorem dumbCopy_spec (size : Nat) (mapped data : List Byte) (fuel : Nat)
    (hsize : size ≤ vectorMaxSize) (hf : 2 ^ 31 < fuel) :
    ∃ s, dumbCopy fuel size mapped data = some s ∧
      (s.overflow = true ↔ 2 ^ 31 ≤ size) ∧
      s.visited = (List.range (min size (2 ^ 31))).map Int.ofNat ∧
      (size < 2 ^ 31 → s.i = size) ∧ (2 ^ 31 ≤ size → s.i = -2 ^ 31) ∧
      (data.length = size → mapped.length = size →
        s.data = mapped.take (min size (2 ^ 31)) ++ data.drop (min size (2 ^ 31))) := by
  unfold vectorMaxSize at hsize
  by_cases h : size < 2 ^ 31
  · have hmin : min size (2 ^ 31) = size := by omega
    refine ⟨_, dumbCopy_small fuel size mapped data h (by omega), ?_⟩
    obtain ⟨h1, h2, h3⟩ := iterate_index mapped data size (by omega)
    rw [hmin]
    refine ⟨?_, h2, fun _ => h1, fun h' => absurd h' (by omega), ?_⟩
    · rw [h3]
      constructor
      · intro h'; cases h'
      · intro h'; omega
    · intro hd hm
      exact iterate_data mapped data size (by omega) (by omega) (by omega)
  · have hmin : min size (2 ^ 31) = 2 ^ 31 := by omega
    refine ⟨_, dumbCopy_large fuel size (2 ^ 31) mapped data rfl (by omega) (by omega) hf, ?_⟩
    obtain ⟨h1, h2, h3⟩ := iterate_last mapped data (2 ^ 31) rfl
    rw [hmin]
    refine ⟨?_, h2, fun h' => absurd h' h, fun _ => h1, ?_⟩
    · rw [h3]
      constructor
      · intro _; omega
      · intro _; rfl
    · intro hd hm
      exact iterate_data mapped data (2 ^ 31) (le_refl _) (by omega) (by omega)

/-- The byte at index `n` of a destination of which only the first `n` bytes were copied
is the byte that was there before. -/
theorem getElem?_take_append_drop (mapped data : List Byte) (n : Nat)
    (hm : n ≤ mapped.length) :
    (mapped.take n ++ data.drop n)[n]? = data[n]? := by
  have hl : (mapped.take n).length = n := by
    rw [List.length_take]; omega
  rw [List.getElem?_append_right (by omega), hl, Nat.sub_self, List.getElem?_drop]
  rfl

/-- C10 (amended). In the `dumb` loop on a vector of at most `max_size()` bytes, `i++`
leaves the `int32_t` range exactly when `size >= 2^31`. Below `2^31` the loop ends
after exactly `size` passes over `0 .. size-1` in ascending order and every byte is
copied. From `2^31` on, with the index wrapping modulo `2^32`, the loop ends after
exactly `2^31` passes over `0 .. 2^31-1`: every byte is copied when `size = 2^31`,
and byte `2^31` keeps its old value when `size > 2^31`. -/
theorem dumb_loop_index_overflow (size : Nat) (mapped data : List Byte) (fuel : Nat)
    (hsize : size ≤ vectorMaxSize) (hf : 2 ^ 31 < fuel) :
    ∃ s, dumbCopy fuel size mapped data = some s ∧
      (s.overflow = true ↔ 2 ^ 31 ≤ size) ∧
      (size < 2 ^ 31 →
        s.visited = (List.range size).map Int.ofNat ∧ s.visited.length = size ∧
        (data.length = size → mapped.length = size → s.data = mapped)) ∧
      (2 ^ 31 ≤ size →
        s.visited = (List.range (2 ^ 31)).map Int.ofNat ∧ s.visited.length = 2 ^ 31 ∧
        (data.length = size → mapped.length = size →
          s.data = mapped.take (2 ^ 31) ++ data.drop (2 ^ 31))) ∧
      (size = 2 ^ 31 → data.length = size → mapped.length = size → s.data = mapped) ∧
      (2 ^ 31 < size → data.length = size → mapped.length = size →
        s.data[2 ^ 31]? = data[2 ^ 31]?) := by
  obtain ⟨s, h1, h2, h3, _, _, h6⟩ := dumbCopy_spec size mapped data fuel hsize hf
  refine ⟨s, h1, h2, ?_, ?_, ?_, ?_⟩
  · intro h
    have hmin : min size (2 ^ 31) = size := by omega
    rw [hmin] at h3 h6
    refine ⟨h3, ?_, ?_⟩
    · rw [h3, List.length_map, List.length_range]
    · intro hd hm
      rw [h6 hd hm, List.take_of_length_le (by omega), List.drop_of_length_le (by omega),
        List.append_nil]
  · intro h
    have hmin : min size (2 ^ 31) = 2 ^ 31 := by omega
    rw [hmin] at h3 h6
    refine ⟨h3, ?_, h6⟩
    rw [h3, List.length_map, List.length_range]
  · intro h hd hm
    have hmin : min size (2 ^ 31) = size := by omega
    rw [hmin] at h6
    rw [h6 hd hm, List.take_of_length_le (by omega), List.drop_of_length_le (by omega),
      List.append_nil]
  · intro h hd hm
    have hmin : min size (2 ^ 31) = 2 ^ 31 := by omega
    rw [hmin] at h6
    rw [h6 hd hm]
    exact getElem?_take_append_drop mapped data (2 ^ 31) (by omega)

/-- On three bytes the loop copies all three, without overflow. -/
theorem dumb_loop_index_overflow_witness :
    3 ≤ vectorMaxSize ∧ 2 ^ 31 < 2 ^ 32 ∧
    ∃ s, dumbCopy (2 ^ 32) 3 [1, 2, 3] [0, 0, 0] = some s ∧ s.overflow = false ∧
      s.visited = [0, 1, 2] ∧ s.data = [1, 2, 3] := by
  refine ⟨by decide, by decide, ?_⟩
  obtain ⟨s, h1, h2, h3, _⟩ :=
    dumb_loop_index_overflow 3 [1, 2, 3] [0, 0, 0] (2 ^ 32) (by decide) (by decide)
  refine ⟨s, h1, ?_, (h3 (by decide)).1, (h3 (by decide)).2.2 rfl rfl⟩
  cases h : s.overflow
  · rfl
  · exact absurd (h2.1 h) (by decide)

/-- C10 (as stated) fails at `size = 2^31`: `i++` overflows, yet with the index
wrapping the loop ends, after `2^31` passes, with every one of the `2^31` bytes copied. -/
theorem dumb_loop_exactly_2p31_copies_all :
    ∃ s, dumbCopy (2 ^ 32) (2 ^ 31) (List.replicate (2 ^ 31) 255) (List.replicate (2 ^ 31) 0)
        = some s ∧
      s.overflow = true ∧ s.visited.length = 2 ^ 31 ∧ s.data = List.replicate (2 ^ 31) 255 := by
  obtain ⟨s, h1, h2, h3, _, _, h6⟩ :=
    dumbCopy_spec (2 ^ 31) (List.replicate (2 ^ 31) 255) (List.replicate (2 ^ 31) 0) (2 ^ 32)
      (by unfold vectorMaxSize; omega) (by omega)
  rw [Nat.min_self] at h3 h6
  refine ⟨s, h1, h2.2 (le_refl _), ?_, ?_⟩
  · rw [h3, List.length_map, List.length_range]
  · rw [h6 (List.length_replicate _ _) (List.length_replicate _ _),
      List.take_of_length_le (by rw [List.length_replicate]),
      List.drop_of_length_le (by rw [List.length_replicate]), List.append_nil]

/-! ## The checked calls -/

theorem VK_CHECK_RESULT_success (b : Build) (site : Site) (out : List Out) :
    VK_CHECK_RESULT b site VK_SUCCESS out = (out, false) := rfl

theorem VK_CHECK_RESULT_failure (b : Build) (site : Site) (res : VkResult) (out : List Out)
    (h : res ≠ VK_SUCCESS) :
    VK_CHECK_RESULT b site res out = (out ++ [fatalLine b site res], !b.ndebug) := by
  unfold VK_CHECK_RESULT
  rw [if_pos h]

/-- A run of `setup` that ends at a failed assertion has flushed the banner only: the
fatal line, which ends in `"\n"` and not in `std::endl`, is still in the stream
buffer. -/
theorem setup_aborted_flushed (b : Build) (env : Env) (ct : Int) (out : List Out)
    (h : (setup b env ct out).outcome = .aborted) : (setup b env ct out).flushed = out := by
  revert h
  apply setup_cases b env ct out (fun r => r.outcome = .aborted → r.flushed = out)
  · intro _ _ _ _ _
    rfl
  · intro o calls _ h
    exfalso
    revert h
    unfold performanceTest
    by_cases hv : vectorMaxSize < env.allocSize
    · simp [hv]
    · simp only [hv, if_false]
      split <;> simp

/-- With `assert` active, each `VK_CHECK_RESULT` ends the run on the first status
that is not `VK_SUCCESS`, the fatal line being the last insertion. -/
theorem setup_fatal (b : Build) (env : Env) (ct : Int) (out : List Out)
    (hb : b.ndebug = false) (hl : ¬ env.layerCountStatus < 0) :
    (env.createInstance ≠ VK_SUCCESS →
      FatalStop b (setup b env ct out) out .createInstance env.createInstance) ∧
    (env.createInstance = VK_SUCCESS → env.deviceCountStatus ≠ VK_SUCCESS →
      FatalStop b (setup b env ct out) out .countPhysicalDevices env.deviceCountStatus) ∧
    (env.createInstance = VK_SUCCESS → env.deviceCountStatus = VK_SUCCESS →
      env.deviceFillStatus ≠ VK_SUCCESS →
      FatalStop b (setup b env ct out) out .enumeratePhysicalDevices env.deviceFillStatus) ∧
    (∀ pd tl, env.createInstance = VK_SUCCESS → env.deviceCountStatus = VK_SUCCESS →
      env.deviceFillStatus = VK_SUCCESS →
      filled 0 env.deviceCount env.devices = pd :: tl →
      (env.createDevice ≠ VK_SUCCESS →
        FatalStop b (setup b env ct out) (out ++ [gpuLine env pd]) .createDevice
          env.createDevice) ∧
      (env.createDevice = VK_SUCCESS → env.createAllocator ≠ VK_SUCCESS →
        FatalStop b (setup b env ct out) (out ++ [gpuLine env pd]) .createAllocator
          env.createAllocator) ∧
      (env.createDevice = VK_SUCCESS → env.createAllocator = VK_SUCCESS →
        env.createBuffer ≠ VK_SUCCESS →
        FatalStop b (setup b env ct out) (out ++ [gpuLine env pd]) .createBuffer
          env.createBuffer)) := by
  have z : ¬ ((0 : Int) < 0) := by decide
  refine ⟨?_, ?_, ?_, ?_⟩
  · intro h
    simp [setup, VK_CHECK_RESULT, hb, hl, h, FatalStop, Site.callCount, Site.isCall]
  · intro h1 h
    simp [setup, VK_CHECK_RESULT, hb, hl, z, h1, h, FatalStop, Site.callCount, Site.isCall]
  · intro h1 h2 h
    simp [setup, VK_CHECK_RESULT, hb, hl, z, h1, h2, h, FatalStop, Site.callCount, Site.isCall]
  · intro pd tl h1 h2 h3 hpd
    refine ⟨?_, ?_, ?_⟩
    · intro h
      simp [setup, VK_CHECK_RESULT, hb, hl, z, h1, h2, h3, hpd, h, FatalStop, Site.callCount,
        Site.isCall, gpuLine]
    · intro h4 h
      simp [setup, VK_CHECK_RESULT, hb, hl, z, h1, h2, h3, hpd, h4, h, FatalStop,
        Site.callCount, Site.isCall, gpuLine]
    · intro h4 h5 h
      simp [setup, VK_CHECK_RESULT, hb, hl, z, h1, h2, h3, hpd, h4, h5, h, FatalStop,
        Site.callCount, Site.isCall, gpuLine]

/-- When the first layer query does not fail, every checked status is `VK_SUCCESS` and
there is a device in the list, `setup` reaches the performance test, in every build. -/
theorem setup_success (b : Build) (env : Env) (ct : Int) (out : List Out) (pd : Nat)
    (tl : List Nat) (hl : ¬ env.layerCountStatus < 0) (h1 : env.createInstance = VK_SUCCESS)
    (h2 : env.deviceCountStatus = VK_SUCCESS) (h3 : env.deviceFillStatus = VK_SUCCESS)
    (hpd : filled 0 env.deviceCount env.devices = pd :: tl)
    (h4 : env.createDevice = VK_SUCCESS) (h5 : env.createAllocator = VK_SUCCESS)
    (h6 : env.createBuffer = VK_SUCCESS) :
    setup b env ct out = performanceTest env ct out (out ++ [gpuLine env pd])
      [.enumerateInstanceLayerProperties, .enumerateInstanceLayerProperties,
       .createInstance (validationLayers.all fun layerName =>
         (filled "" env.instanceLayerCount env.layerNames).any fun instanceLayer =>
           decide (strcmp instanceLayer layerName = 0)),
       .enumeratePhysicalDevices, .enumeratePhysicalDevices,
       .getPhysicalDeviceProperties pd, .createDevice pd, .createAllocator pd,
       .createBuffer 5242880] := by
  have z : ¬ ((0 : Int) < 0) := by decide
  simp only [setup, hl, h1, h2, h3, hpd, h4, h5, h6, gpuLine, VK_CHECK_RESULT_success, z,
    if_false, Bool.false_eq_true, List.cons_append, List.nil_append, Nat.reduceMul]

/-- Without a device in the list, `setup` ends at `physicalDevices[0]`, with
nothing inserted after the banner. -/
theorem setup_no_device (b : Build) (env : Env) (ct : Int) (out : List Out)
    (hl : ¬ env.layerCountStatus < 0)
    (h1 : env.createInstance = VK_SUCCESS) (h2 : env.deviceCountStatus = VK_SUCCESS)
    (h3 : env.deviceFillStatus = VK_SUCCESS) (h0 : env.deviceCount = 0) :
    (setup b env ct out).outcome = .undefined ∧ (setup b env ct out).stdout = out ∧
    (setup b env ct out).calls.length = 5 := by
  have hpd : filled 0 env.deviceCount env.devices = [] := by
    simp [filled, h0]
  have z : ¬ ((0 : Int) < 0) := by decide
  simp [setup, hl, h1, h2, h3, hpd, VK_CHECK_RESULT_success, z]

/-- On a vector that can be constructed the performance test runs to the end, whatever
the strategy: it inserts the `Duration` and `Bandwidth` lines and `main` returns 0. -/
theorem performanceTest_returns (env : Env) (ct : Int) (fl out : List Out)
    (calls : List ApiCall) (hs : env.allocSize ≤ vectorMaxSize) :
    ∃ d, performanceTest env ct fl out calls =
      { stdout := out ++ [durationLine (durationUs env.start env.stop), .text "Bandwidth: ",
          .real (bandwidth env.allocSize (durationUs env.start env.stop)), .text " MB/s\n"],
        flushed := out ++ [durationLine (durationUs env.start env.stop), .text "Bandwidth: ",
          .real (bandwidth env.allocSize (durationUs env.start env.stop)), .text " MB/s\n"],
        calls := calls, outcome := .returned 0, copyType := some ct, data := some d } := by
  obtain ⟨s, hs1, _⟩ := dumbCopy_spec env.allocSize env.mapped
    (List.replicate env.allocSize 0) (2 ^ 32) hs (by omega)
  have h : ¬ vectorMaxSize < env.allocSize := by omega
  simp only [performanceTest, h, if_false, hs1, Option.map_some']
  split_ifs <;> exact ⟨_, rfl⟩

theorem fatalLine_ne_text (b : Build) (site : Site) (st : VkResult) (s : String) (c : Char)
    (hs : s.data.head? = some c) (hc : c ≠ 'F') : fatalLine b site st ≠ .text s := by
  unfold fatalLine
  intro h
  injection h with h
  have hh : (("Fatal : VkResult is \"" ++ errorString st ++ "\" in " ++ b.file ++ " at line "
    ++ toString (b.line site) ++ "\n" : String).data).head? = some 'F' := by
    simp [String.data_append]
  rw [h, hs] at hh
  injection hh with hh
  exact hc hh

/-- C5 (what the code does). The status of a layer query is never tested. When the set
of layers grows between the two `vkEnumerateInstanceLayerProperties` calls, the
second call returns `VK_INCOMPLETE`, a status other than `VK_SUCCESS`; in every
build and with each strategy the run then inserts no fatal line, makes every later
call, prints the `Duration` and `Bandwidth` lines and returns 0. -/
theorem layer_query_status_unchecked (b : Build) :
    envLayerRace.layerCountStatus = VK_SUCCESS ∧
    envLayerRace.layerFillStatus = VK_INCOMPLETE ∧ VK_INCOMPLETE ≠ VK_SUCCESS ∧
    ∀ t ∈ strategies,
      (main b envLayerRace ["prog", t.1]).stdout =
        [.text t.2.1, .text "GPU: GPU0\n", .text "Duration:  4000 us\n",
         .text "Bandwidth: ", .real (bandwidth 5242880 4000), .text " MB/s\n"] ∧
      (∀ site st, fatalLine b site st ∉ (main b envLayerRace ["prog", t.1]).stdout) ∧
      (main b envLayerRace ["prog", t.1]).outcome = .returned 0 ∧
      (main b envLayerRace ["prog", t.1]).calls =
        [.enumerateInstanceLayerProperties, .enumerateInstanceLayerProperties,
         .createInstance false, .enumeratePhysicalDevices, .enumeratePhysicalDevices,
         .getPhysicalDeviceProperties 1, .createDevice 1, .createAllocator 1,
         .createBuffer 5242880] := by
  refine ⟨rfl, rfl, by decide, ?_⟩
  have key : ∀ (ct : Int) (banner : String), banner.data.head? = some '=' →
      (setup b envLayerRace ct [.text banner]).stdout =
        [.text banner, .text "GPU: GPU0\n", .text "Duration:  4000 us\n",
         .text "Bandwidth: ", .real (bandwidth 5242880 4000), .text " MB/s\n"] ∧
      (∀ site st, fatalLine b site st ∉ (setup b envLayerRace ct [.text banner]).stdout) ∧
      (setup b envLayerRace ct [.text banner]).outcome = .returned 0 ∧
      (setup b envLayerRace ct [.text banner]).calls =
        [.enumerateInstanceLayerProperties, .enumerateInstanceLayerProperties,
         .createInstance false, .enumeratePhysicalDevices, .enumeratePhysicalDevices,
         .getPhysicalDeviceProperties 1, .createDevice 1, .createAllocator 1,
         .createBuffer 5242880] := by
    intro ct banner hban
    have hv := setup_success b envLayerRace ct [.text banner] 1 [] (by decide) rfl rfl rfl rfl
      rfl rfl rfl
    obtain ⟨d, hp⟩ := performanceTest_returns envLayerRace ct [.text banner]
      ([.text banner] ++ [gpuLine envLayerRace 1])
      [.enumerateInstanceLayerProperties, .enumerateInstanceLayerProperties,
       .createInstance (validationLayers.all fun layerName =>
         (filled "" envLayerRace.instanceLayerCount envLayerRace.layerNames).any
           fun instanceLayer => decide (strcmp instanceLayer layerName = 0)),
       .enumeratePhysicalDevices, .enumeratePhysicalDevices,
       .getPhysicalDeviceProperties 1, .createDevice 1, .createAllocator 1,
       .createBuffer 5242880] (by decide)
    have hd : durationUs envLayerRace.start envLayerRace.stop = 4000 := by decide
    have ha : envLayerRace.allocSize = 5242880 := rfl
    have hl : durationLine 4000 = .text "Duration:  4000 us\n" := by decide
    have hg : gpuLine envLayerRace 1 = .text "GPU: GPU0\n" := by decide
    have hlay : (validationLayers.all fun layerName =>
         (filled "" envLayerRace.instanceLayerCount envLayerRace.layerNames).any
           fun instanceLayer => decide (strcmp instanceLayer layerName = 0)) = false := by
      decide
    rw [hv, hp]
    simp only [hd, ha, hl, hg, hlay, List.cons_append, List.nil_append]
    refine ⟨trivial, ?_, trivial, trivial⟩
    intro site st hmem
    simp only [List.mem_cons, List.mem_singleton, List.not_mem_nil, or_false] at hmem
    rcases hmem with h | h | h | h | h | h
    · exact fatalLine_ne_text b site st _ '=' hban (by decide) h
    · exact fatalLine_ne_text b site st "GPU: GPU0\n" 'G' rfl (by decide) h
    · exact fatalLine_ne_text b site st "Duration:  4000 us\n" 'D' rfl (by decide) h
    · exact fatalLine_ne_text b site st "Bandwidth: " 'B' rfl (by decide) h
    · unfold fatalLine at h
      cases h
    · exact fatalLine_ne_text b site st " MB/s\n" ' ' rfl (by decide) h
  intro t ht
  simp only [strategies, List.mem_cons, List.mem_singleton, List.not_mem_nil, or_false] at ht
  rcases ht with rfl | rfl | rfl
  · rw [main_memcpy]; exact key 0 _ rfl
  · rw [main_dumb]; exact key 1 _ rfl
  · rw [main_reference]; exact key (-1) _ rfl

/-! ## Device selection -/

/-- C6 (what the code does). When both enumeration calls succeed and report zero
devices, no check fires: nothing is printed after the banner, in particular no
fatal line, and the run ends at `physicalDevices[0]` on an empty vector, which has
no defined behaviour. -/
theorem zero_devices_no_diagnostic :
    envNoDevice.createInstance = VK_SUCCESS ∧ envNoDevice.deviceCountStatus = VK_SUCCESS ∧
    envNoDevice.deviceFillStatus = VK_SUCCESS ∧ envNoDevice.deviceCount = 0 ∧
    ∀ t ∈ strategies,
      (main buildAt envNoDevice ["prog", t.1]).outcome = .undefined ∧
      (main buildAt envNoDevice ["prog", t.1]).stdout = [.text t.2.1] ∧
      (∀ site st, fatalLine buildAt site st ∉ (main buildAt envNoDevice ["prog", t.1]).stdout) := by
  refine ⟨rfl, rfl, rfl, rfl, ?_⟩
  have key : ∀ (ct : Int) (banner : Out), banner ∈ banners →
      (setup buildAt envNoDevice ct [banner]).outcome = .undefined ∧
      (setup buildAt envNoDevice ct [banner]).stdout = [banner] ∧
      (∀ site st, fatalLine buildAt site st ∉ (setup buildAt envNoDevice ct [banner]).stdout) := by
    intro ct banner hb
    obtain ⟨h1, h2, _⟩ := setup_no_device buildAt envNoDevice ct [banner] (by decide)
      rfl rfl rfl rfl
    refine ⟨h1, h2, ?_⟩
    intro site st hmem
    rw [h2, List.mem_singleton] at hmem
    exact (plain_fatalLine buildAt site st).1 (hmem ▸ hb)
  intro t ht
  simp only [strategies, List.mem_cons, List.mem_singleton, List.not_mem_nil, or_false] at ht
  rcases ht with rfl | rfl | rfl
  · rw [main_memcpy]; exact key 0 _ (by decide)
  · rw [main_dumb]; exact key 1 _ (by decide)
  · rw [main_reference]; exact key (-1) _ (by decide)

/-! ## Equivalence of the two copies -/

/-- Up to `2^31` bytes the `memcpy` strategy and the `dumb` strategy leave the same
destination, equal to the mapped source. -/
theorem memcpy_dumb_agree (size : Nat) (mapped : List Byte) (hm : mapped.length = size)
    (hs : size ≤ 2 ^ 31) :
    memcpy (List.replicate size 0) mapped size = mapped ∧
    ∃ s, dumbCopy (2 ^ 32) size mapped (List.replicate size 0) = some s ∧ s.data = mapped := by
  refine ⟨memcpy_full size _ _ (List.length_replicate _ _) hm, ?_⟩
  obtain ⟨s, h1, _, _, _, _, h6⟩ := dumbCopy_spec size mapped (List.replicate size 0) (2 ^ 32)
    (by unfold vectorMaxSize; omega) (by omega)
  refine ⟨s, h1, ?_⟩
  have hmin : min size (2 ^ 31) = size := by omega
  rw [hmin] at h6
  rw [h6 (List.length_replicate _ _) hm, List.take_of_length_le (by omega),
    List.drop_of_length_le (by rw [List.length_replicate]), List.append_nil]

namespace F64

theorem ilog2Aux_spec : ∀ fuel n : Nat, 1 ≤ n → n ≤ fuel →
    2 ^ ilog2Aux fuel n ≤ n ∧ n < 2 ^ (ilog2Aux fuel n + 1) := by
  intro fuel
  induction fuel with
  | zero => intro n h1 h2; omega
  | succ fuel ih =>
    intro n h1 h2
    unfold ilog2Aux
    by_cases h : n < 2
    · rw [if_pos h]
      have : n = 1 := by omega
      subst this
      constructor <;> norm_num
    · rw [if_neg h]
      obtain ⟨ha, hb⟩ := ih (n / 2) (by omega) (by omega)
      rw [pow_succ, pow_succ]
      constructor <;> omega

theorem ilog2_spec (n : Nat) (h : 1 ≤ n) : 2 ^ ilog2 n ≤ n ∧ n < 2 ^ (ilog2 n + 1) :=
  ilog2Aux_spec n n h (le_refl n)

/-- A power of two with an integer exponent as a quotient of two powers with natural
exponents. -/
theorem zpow_split (e : Int) : (2 : ℚ) ^ e = (2 : ℚ) ^ e.toNat / (2 : ℚ) ^ (-e).toNat := by
  rcases le_total 0 e with h | h
  · have h1 : (-e).toNat = 0 := by omega
    obtain ⟨n, rfl⟩ := Int.eq_ofNat_of_zero_le h
    rw [h1, pow_zero, div_one, Int.toNat_ofNat, zpow_natCast]
  · have h1 : e.toNat = 0 := by omega
    obtain ⟨n, hn⟩ := Int.eq_ofNat_of_zero_le (show 0 ≤ -e by omega)
    have he : e = -(n : Int) := by omega
    subst he
    rw [h1, pow_zero, neg_neg, Int.toNat_ofNat, zpow_neg, zpow_natCast, one_div]

/-- The rounded quotient is within one half of the quotient. -/
theorem roundNearestEven_spec (a b : Nat) (hb : 0 < b) :
    |((roundNearestEven a b : Nat) : ℚ) - (a : ℚ) / b| ≤ 1 / 2 := by
  have hb' : (0 : ℚ) < b := by exact_mod_cast hb
  have hdiv : (a : ℚ) = b * ((a / b : Nat) : ℚ) + ((a % b : Nat) : ℚ) := by
    exact_mod_cast (Nat.div_add_mod a b).symm
  have hmod : ((a % b : Nat) : ℚ) < b := by exact_mod_cast Nat.mod_lt a hb
  have hmod0 : (0 : ℚ) ≤ ((a % b : Nat) : ℚ) := by positivity
  rw [abs_le]
  unfold roundNearestEven
  have hx : (a : ℚ) / b = ((a / b : Nat) : ℚ) + ((a % b : Nat) : ℚ) / b := by
    rw [hdiv]; field_simp; ring
  rw [hx]
  have hr : (0 : ℚ) ≤ ((a % b : Nat) : ℚ) / b := by positivity
  have hr1 : ((a % b : Nat) : ℚ) / b < 1 := by rw [div_lt_one hb']; exact hmod
  split_ifs with h1 h2 h3
  · have : ((a % b : Nat) : ℚ) / b ≤ 1 / 2 := by
      rw [div_le_iff₀ hb']
      have : (2 : ℚ) * ((a % b : Nat) : ℚ) < b := by exact_mod_cast h1
      linarith
    constructor <;> linarith
  · have : 1 / 2 ≤ ((a % b : Nat) : ℚ) / b := by
      rw [le_div_iff₀ hb']
      have : (b : ℚ) < 2 * ((a % b : Nat) : ℚ) := by exact_mod_cast h2
      linarith
    push_cast
    constructor <;> linarith
  · have : ((a % b : Nat) : ℚ) / b = 1 / 2 := by
      have e : 2 * (a % b) = b := by omega
      have : (2 : ℚ) * ((a % b : Nat) : ℚ) = b := by exact_mod_cast e
      field_simp
      linarith
    constructor <;> linarith
  · have : ((a % b : Nat) : ℚ) / b = 1 / 2 := by
      have e : 2 * (a % b) = b := by omega
      have : (2 : ℚ) * ((a % b : Nat) : ℚ) = b := by exact_mod_cast e
      field_simp
      linarith
    push_cast
    constructor <;> linarith


/-- The exponent found by `floorLog2Ratio` brackets the quotient. -/
theorem floorLog2Ratio_spec (p q : Nat) (hp : 1 ≤ p) (hq : 1 ≤ q) :
    (2 : ℚ) ^ floorLog2Ratio p q ≤ (p : ℚ) / q ∧
    (p : ℚ) / q < (2 : ℚ) ^ (floorLog2Ratio p q + 1) := by
  obtain ⟨pa, pb⟩ := ilog2_spec p hp
  obtain ⟨qa, qb⟩ := ilog2_spec q hq
  have hq' : (0 : ℚ) < q := by exact_mod_cast hq
  have pa' : (2 : ℚ) ^ (ilog2 p : Int) ≤ p := by rw [zpow_natCast]; exact_mod_cast pa
  have pb' : (p : ℚ) < (2 : ℚ) ^ ((ilog2 p : Int) + 1) := by
    rw [← Nat.cast_succ, zpow_natCast]; exact_mod_cast pb
  have qa' : (2 : ℚ) ^ (ilog2 q : Int) ≤ q := by rw [zpow_natCast]; exact_mod_cast qa
  have qb' : (q : ℚ) < (2 : ℚ) ^ ((ilog2 q : Int) + 1) := by
    rw [← Nat.cast_succ, zpow_natCast]; exact_mod_cast qb
  have two : (0 : ℚ) < 2 := by norm_num
  have h2 : ∀ z : Int, (0 : ℚ) < (2 : ℚ) ^ z := fun z => zpow_pos two z
  unfold floorLog2Ratio
  simp only
  generalize hd : (ilog2 p : Int) - (ilog2 q : Int) = d
  have test : (q * 2 ^ d.toNat ≤ p * 2 ^ (-d).toNat) ↔ (2 : ℚ) ^ d ≤ (p : ℚ) / q := by
    rw [zpow_split d, le_div_iff₀ hq', div_mul_eq_mul_div, div_le_iff₀ (pow_pos two _)]
    constructor
    · intro h
      have : ((q * 2 ^ d.toNat : Nat) : ℚ) ≤ ((p * 2 ^ (-d).toNat : Nat) : ℚ) := by
        exact_mod_cast h
      push_cast at this
      linarith
    · intro h
      have : ((q * 2 ^ d.toNat : Nat) : ℚ) ≤ ((p * 2 ^ (-d).toNat : Nat) : ℚ) := by
        push_cast; linarith
      exact_mod_cast this
  -- the coarse bracket 2^(d-1) < p/q < 2^(d+1)
  have lo : (2 : ℚ) ^ (d - 1) ≤ (p : ℚ) / q := by
    rw [le_div_iff₀ hq']
    have e : (2 : ℚ) ^ (d - 1) * (2 : ℚ) ^ ((ilog2 q : Int) + 1) = (2 : ℚ) ^ (ilog2 p : Int) := by
      rw [← zpow_add₀ (by norm_num : (2 : ℚ) ≠ 0)]
      congr 1; omega
    calc (2 : ℚ) ^ (d - 1) * q ≤ (2 : ℚ) ^ (d - 1) * (2 : ℚ) ^ ((ilog2 q : Int) + 1) :=
          mul_le_mul_of_nonneg_left (le_of_lt qb') (le_of_lt (h2 _))
      _ = (2 : ℚ) ^ (ilog2 p : Int) := e
      _ ≤ p := pa'
  have hi : (p : ℚ) / q < (2 : ℚ) ^ (d + 1) := by
    rw [div_lt_iff₀ hq']
    have e : (2 : ℚ) ^ (d + 1) * (2 : ℚ) ^ (ilog2 q : Int) = (2 : ℚ) ^ ((ilog2 p : Int) + 1) := by
      rw [← zpow_add₀ (by norm_num : (2 : ℚ) ≠ 0)]
      congr 1; omega
    calc (p : ℚ) < (2 : ℚ) ^ ((ilog2 p : Int) + 1) := pb'
      _ = (2 : ℚ) ^ (d + 1) * (2 : ℚ) ^ (ilog2 q : Int) := e.symm
      _ ≤ (2 : ℚ) ^ (d + 1) * q := mul_le_mul_of_nonneg_left qa' (le_of_lt (h2 _))
  by_cases ht : q * 2 ^ d.toNat ≤ p * 2 ^ (-d).toNat
  · rw [if_pos ht]
    exact ⟨test.1 ht, hi⟩
  · rw [if_neg ht]
    refine ⟨lo, ?_⟩
    have : ¬ (2 : ℚ) ^ d ≤ (p : ℚ) / q := fun h => ht (test.2 h)
    rw [sub_add_cancel]
    exact lt_of_not_le this


theorem two_zpow_pos (z : Int) : (0 : ℚ) < (2 : ℚ) ^ z := zpow_pos (by norm_num) z

theorem two_zpow_lt {a b : Int} (h : (2 : ℚ) ^ a < (2 : ℚ) ^ b) : a < b := by
  by_contra hcon
  have : (2 : ℚ) ^ b ≤ (2 : ℚ) ^ a := zpow_le_zpow_right₀ (by norm_num) (by omega)
  linarith

/-- In the range of the normal numbers, rounding gives a finite number with a 53-bit
significand, within relative distance `2^-53` of the rational rounded. -/
theorem round_normal (neg : Bool) (p q : Nat) (hp : 1 ≤ p) (hq : 1 ≤ q)
    (hlo : (2 : ℚ) ^ (-1022 : Int) ≤ (p : ℚ) / q) (hhi : (p : ℚ) / q < (2 : ℚ) ^ (1023 : Int)) :
    ∃ m e, round neg p q = finite neg m e ∧ 2 ^ 52 ≤ m ∧ m < 2 ^ 53 ∧
      |(m : ℚ) * (2 : ℚ) ^ e - (p : ℚ) / q| ≤ (2 : ℚ) ^ (-53 : Int) * ((p : ℚ) / q) := by
  obtain ⟨hL1, hL2⟩ := floorLog2Ratio_spec p q hp hq
  generalize hL : floorLog2Ratio p q = L at hL1 hL2
  have hq' : (0 : ℚ) < q := by exact_mod_cast hq
  have hLhi : L < 1023 := two_zpow_lt (lt_of_le_of_lt hL1 hhi)
  have hLlo : -1022 < L + 1 := two_zpow_lt (lt_of_le_of_lt hlo hL2)
  have he : max (L - 52) (-1074) = L - 52 := max_eq_left (by omega)
  have hb : 0 < q * 2 ^ (L - 52).toNat := Nat.mul_pos hq (pow_pos (by norm_num) _)
  have hr := roundNearestEven_spec (p * 2 ^ (-(L - 52)).toNat) (q * 2 ^ (L - 52).toNat) hb
  generalize hm : roundNearestEven (p * 2 ^ (-(L - 52)).toNat) (q * 2 ^ (L - 52).toNat) = m
    at hr
  -- the scaled quotient
  have hy : (((p * 2 ^ (-(L - 52)).toNat : Nat) : ℚ)) / ((q * 2 ^ (L - 52).toNat : Nat) : ℚ) =
      (p : ℚ) / q / (2 : ℚ) ^ (L - 52) := by
    rw [zpow_split (L - 52)]
    push_cast
    have h1 : (0 : ℚ) < (2 : ℚ) ^ (L - 52).toNat := pow_pos (by norm_num) _
    have h2 : (0 : ℚ) < (2 : ℚ) ^ (-(L - 52)).toNat := pow_pos (by norm_num) _
    field_simp
  rw [hy] at hr
  have hpe := two_zpow_pos (L - 52)
  have hy1 : (2 : ℚ) ^ (52 : Int) ≤ (p : ℚ) / q / (2 : ℚ) ^ (L - 52) := by
    rw [le_div_iff₀ hpe, ← zpow_add₀ (by norm_num : (2 : ℚ) ≠ 0)]
    have : (52 : Int) + (L - 52) = L := by omega
    rw [this]; exact hL1
  have hy2 : (p : ℚ) / q / (2 : ℚ) ^ (L - 52) < (2 : ℚ) ^ (53 : Int) := by
    rw [div_lt_iff₀ hpe, ← zpow_add₀ (by norm_num : (2 : ℚ) ≠ 0)]
    have : (53 : Int) + (L - 52) = L + 1 := by omega
    rw [this]; exact hL2
  rw [abs_le] at hr
  have e52 : (2 : ℚ) ^ (52 : Int) = ((2 ^ 52 : Nat) : ℚ) := by norm_num
  have e53 : (2 : ℚ) ^ (53 : Int) = ((2 ^ 53 : Nat) : ℚ) := by norm_num
  have hm1 : 2 ^ 52 ≤ m := by
    have : ((2 ^ 52 : Nat) : ℚ) < (m : ℚ) + 1 := by rw [← e52]; linarith
    have : 2 ^ 52 < m + 1 := by exact_mod_cast this
    omega
  have hm2 : m ≤ 2 ^ 53 := by
    have : (m : ℚ) < ((2 ^ 53 : Nat) : ℚ) + 1 := by rw [← e53]; linarith
    have : m < 2 ^ 53 + 1 := by exact_mod_cast this
    omega
  -- the error of the value m * 2^(L-52)
  have herr : |(m : ℚ) * (2 : ℚ) ^ (L - 52) - (p : ℚ) / q| ≤
      (2 : ℚ) ^ (-53 : Int) * ((p : ℚ) / q) := by
    have h1 : (m : ℚ) * (2 : ℚ) ^ (L - 52) - (p : ℚ) / q =
        ((m : ℚ) - (p : ℚ) / q / (2 : ℚ) ^ (L - 52)) * (2 : ℚ) ^ (L - 52) := by
      field_simp
      ring
    have h2 : |(m : ℚ) - (p : ℚ) / q / (2 : ℚ) ^ (L - 52)| ≤ 1 / 2 := abs_le.2 hr
    rw [h1, abs_mul, abs_of_pos hpe]
    have h3 : (1 / 2 : ℚ) * (2 : ℚ) ^ (L - 52) = (2 : ℚ) ^ (-53 : Int) * (2 : ℚ) ^ L := by
      have : (1 / 2 : ℚ) = (2 : ℚ) ^ (-1 : Int) := by norm_num
      rw [this, ← zpow_add₀ (by norm_num : (2 : ℚ) ≠ 0),
        ← zpow_add₀ (by norm_num : (2 : ℚ) ≠ 0)]
      congr 1; omega
    calc |(m : ℚ) - (p : ℚ) / q / (2 : ℚ) ^ (L - 52)| * (2 : ℚ) ^ (L - 52)
        ≤ (1 / 2) * (2 : ℚ) ^ (L - 52) := mul_le_mul_of_nonneg_right h2 (le_of_lt hpe)
      _ = (2 : ℚ) ^ (-53 : Int) * (2 : ℚ) ^ L := h3
      _ ≤ (2 : ℚ) ^ (-53 : Int) * ((p : ℚ) / q) :=
          mul_le_mul_of_nonneg_left hL1 (le_of_lt (two_zpow_pos _))
  have hround : round neg p q =
      if 971 < (if m = 2 ^ 53 then L - 52 + 1 else L - 52) then inf neg
      else finite neg (if m = 2 ^ 53 then 2 ^ 52 else m)
        (if m = 2 ^ 53 then L - 52 + 1 else L - 52) := by
    unfold round
    rw [if_neg (by omega)]
    simp only [hL, he, hm]
  rw [hround]
  by_cases hmm : m = 2 ^ 53
  · simp only [hmm, if_true]
    rw [if_neg (by omega)]
    refine ⟨2 ^ 52, L - 52 + 1, rfl, le_refl _, by norm_num, ?_⟩
    have : ((2 ^ 52 : Nat) : ℚ) * (2 : ℚ) ^ (L - 52 + 1) = (m : ℚ) * (2 : ℚ) ^ (L - 52) := by
      rw [hmm, zpow_add₀ (by norm_num : (2 : ℚ) ≠ 0)]
      push_cast
      ring
    rw [this]; exact herr
  · simp only [hmm, if_false]
    rw [if_neg (by omega)]
    exact ⟨m, L - 52, rfl, hm1, by omega, herr⟩


theorem round_near (p q : Nat) (hp : 1 ≤ p) (hq : 1 ≤ q)
    (hlo : (2 : ℚ) ^ (-100 : Int) ≤ (p : ℚ) / q) (hhi : (p : ℚ) / q ≤ (2 : ℚ) ^ (100 : Int)) :
    Near (round false p q) ((p : ℚ) / q) := by
  apply round_normal false p q hp hq
  · calc (2 : ℚ) ^ (-1022 : Int) ≤ (2 : ℚ) ^ (-100 : Int) :=
        zpow_le_zpow_right₀ (by norm_num) (by norm_num)
      _ ≤ _ := hlo
  · calc (p : ℚ) / q ≤ (2 : ℚ) ^ (100 : Int) := hhi
      _ < (2 : ℚ) ^ (1023 : Int) := zpow_lt_zpow_right₀ (by norm_num) (by norm_num)

/-- A number near a positive rational lies between half and twice that rational. -/
theorem Near.bounds {x : F64} {r : ℚ} (h : Near x r) (hr : 0 < r) :
    r / 2 ≤ toRat x ∧ toRat x ≤ 2 * r ∧
    (1 - (2 : ℚ) ^ (-53 : Int)) * r ≤ toRat x ∧ toRat x ≤ (1 + (2 : ℚ) ^ (-53 : Int)) * r := by
  obtain ⟨m, e, rfl, _, _, herr⟩ := h
  have hv : toRat (finite false m e) = (m : ℚ) * (2 : ℚ) ^ e := by
    simp [toRat]
  rw [hv]
  generalize (m : ℚ) * (2 : ℚ) ^ e = v at herr
  have hu : (2 : ℚ) ^ (-53 : Int) ≤ 1 / 2 := by norm_num
  generalize (2 : ℚ) ^ (-53 : Int) = u at herr hu
  rw [abs_le] at herr
  have h1 : u * r ≤ 1 / 2 * r := mul_le_mul_of_nonneg_right hu (le_of_lt hr)
  have e1 : (1 - u) * r = r - u * r := by ring
  have e2 : (1 + u) * r = r + u * r := by ring
  rw [e1, e2]
  generalize u * r = t at herr h1
  refine ⟨?_, ?_, ?_, ?_⟩ <;> linarith [herr.1, herr.2]

theorem roundScaled_value (a b : Nat) (k : Int) (hb : 1 ≤ b) :
    (((a * 2 ^ k.toNat : Nat) : ℚ)) / ((b * 2 ^ (-k).toNat : Nat) : ℚ) =
      (a : ℚ) / b * (2 : ℚ) ^ k := by
  rw [zpow_split k]
  push_cast
  have h1 : (0 : ℚ) < (2 : ℚ) ^ k.toNat := pow_pos (by norm_num) _
  have h2 : (0 : ℚ) < (2 : ℚ) ^ (-k).toNat := pow_pos (by norm_num) _
  have h3 : (0 : ℚ) < b := by exact_mod_cast hb
  field_simp

theorem ofNat_near (n : Nat) (h1 : 1 ≤ n) (h2 : n < 2 ^ 64) : Near (ofNat n) n := by
  have h := round_near n 1 h1 (le_refl 1)
    (by
      have : (1 : ℚ) ≤ n := by exact_mod_cast h1
      have : (2 : ℚ) ^ (-100 : Int) ≤ 1 := by norm_num
      simp only [Nat.cast_one, div_one]; linarith)
    (by
      have : (n : ℚ) < ((2 ^ 64 : Nat) : ℚ) := by exact_mod_cast h2
      have : ((2 ^ 64 : Nat) : ℚ) ≤ (2 : ℚ) ^ (100 : Int) := by norm_num
      simp only [Nat.cast_one, div_one]; linarith)
  simpa [ofNat] using h

theorem ofInt_near (i : Int) (h1 : 1 ≤ i) (h2 : i < 2 ^ 63) : Near (ofInt i) i := by
  obtain ⟨n, rfl⟩ := Int.eq_ofNat_of_zero_le (show 0 ≤ i by omega)
  have hn1 : 1 ≤ n := by omega
  have hn2 : n < 2 ^ 64 := by omega
  have h := ofNat_near n hn1 hn2
  have hneg : decide ((n : Int) < 0) = false := by
    rw [decide_eq_false_iff_not]; omega
  unfold ofInt
  rw [hneg, Int.natAbs_ofNat]
  simpa [ofNat] using h


theorem toRat_finite_pos (m : Nat) (e : Int) :
    toRat (finite false m e) = (m : ℚ) * (2 : ℚ) ^ e := by
  simp [toRat]

/-- The product of two positive normal numbers, when it stays far from the limits of
the format, is near the exact product. -/
theorem mul_near {x y : F64} {rx ry : ℚ} (hx : Near x rx) (hy : Near y ry)
    (lo : (2 : ℚ) ^ (-100 : Int) ≤ toRat x * toRat y)
    (hi : toRat x * toRat y ≤ (2 : ℚ) ^ (100 : Int)) :
    Near (mul x y) (toRat x * toRat y) := by
  obtain ⟨m, e, rfl, hm, _, _⟩ := hx
  obtain ⟨n, f, rfl, hn, _, _⟩ := hy
  rw [toRat_finite_pos, toRat_finite_pos] at lo hi ⊢
  have hval : (((m * n * 2 ^ (e + f).toNat : Nat) : ℚ)) / ((1 * 2 ^ (-(e + f)).toNat : Nat) : ℚ) =
      (m : ℚ) * (2 : ℚ) ^ e * ((n : ℚ) * (2 : ℚ) ^ f) := by
    rw [roundScaled_value (m * n) 1 (e + f) (le_refl 1), zpow_add₀ (by norm_num : (2 : ℚ) ≠ 0)]
    push_cast
    ring
  have hmul : mul (finite false m e) (finite false n f) =
      round false (m * n * 2 ^ (e + f).toNat) (1 * 2 ^ (-(e + f)).toNat) := by
    have h0 : ¬ (m = 0 ∨ n = 0) := by omega
    simp only [mul, roundScaled, h0, if_false, Bool.xor_false]
  rw [hmul, ← hval]
  apply round_near
  · exact Nat.mul_pos (Nat.mul_pos (by omega) (by omega)) (pow_pos (by norm_num) _)
  · exact Nat.mul_pos (by norm_num) (pow_pos (by norm_num) _)
  · rw [hval]; exact lo
  · rw [hval]; exact hi

/-- The quotient of two positive normal numbers, when it stays far from the limits of
the format, is near the exact quotient. -/
theorem div_near {x y : F64} {rx ry : ℚ} (hx : Near x rx) (hy : Near y ry)
    (lo : (2 : ℚ) ^ (-100 : Int) ≤ toRat x / toRat y)
    (hi : toRat x / toRat y ≤ (2 : ℚ) ^ (100 : Int)) :
    Near (div x y) (toRat x / toRat y) := by
  obtain ⟨m, e, rfl, hm, _, _⟩ := hx
  obtain ⟨n, f, rfl, hn, _, _⟩ := hy
  rw [toRat_finite_pos, toRat_finite_pos] at lo hi ⊢
  have hn' : (0 : ℚ) < n := by
    have : 0 < n := by omega
    exact_mod_cast this
  have hval : (((m * 2 ^ (e - f).toNat : Nat) : ℚ)) / ((n * 2 ^ (-(e - f)).toNat : Nat) : ℚ) =
      (m : ℚ) * (2 : ℚ) ^ e / ((n : ℚ) * (2 : ℚ) ^ f) := by
    rw [roundScaled_value m n (e - f) (by omega), zpow_sub₀ (by norm_num : (2 : ℚ) ≠ 0)]
    have := two_zpow_pos f
    field_simp
  have hdiv : div (finite false m e) (finite false n f) =
      round false (m * 2 ^ (e - f).toNat) (n * 2 ^ (-(e - f)).toNat) := by
    have h0 : ¬ (n = 0) := by omega
    have h1 : ¬ (m = 0) := by omega
    simp only [div, roundScaled, h0, h1, if_false, Bool.xor_false]
  rw [hdiv, ← hval]
  apply round_near
  · exact Nat.mul_pos (by omega) (pow_pos (by norm_num) _)
  · exact Nat.mul_pos (by omega) (pow_pos (by norm_num) _)
  · rw [hval]; exact lo
  · rw [hval]; exact hi

theorem lit1Em6_eq : lit1Em6 = finite false 4722366482869645 (-72) := by
  decide

theorem lit1Em6_near : Near lit1Em6 (4722366482869645 * (2 : ℚ) ^ (-72 : Int)) := by
  refine ⟨4722366482869645, -72, lit1Em6_eq, by norm_num, by norm_num, ?_⟩
  have : (((4722366482869645 : Nat) : ℚ)) * (2 : ℚ) ^ (-72 : Int) -
      4722366482869645 * (2 : ℚ) ^ (-72 : Int) = 0 := by push_cast; ring
  rw [this, abs_zero]
  positivity


theorem prod_range {x y a b c d : ℚ} (ha : 0 < a) (hc : 0 < c) (h1 : a ≤ x) (h2 : x ≤ b)
    (h3 : c ≤ y) (h4 : y ≤ d) : a * c ≤ x * y ∧ x * y ≤ b * d := by
  have hx : 0 < x := lt_of_lt_of_le ha h1
  have hy : 0 < y := lt_of_lt_of_le hc h3
  exact ⟨mul_le_mul h1 h3 (le_of_lt hc) (le_of_lt hx),
    mul_le_mul h2 h4 (le_of_lt hy) (le_trans (le_of_lt hx) h2)⟩

theorem quot_range {x y a b c d : ℚ} (ha : 0 < a) (hc : 0 < c) (h1 : a ≤ x) (h2 : x ≤ b)
    (h3 : c ≤ y) (h4 : y ≤ d) : a / d ≤ x / y ∧ x / y ≤ b / c := by
  have hx : 0 < x := lt_of_lt_of_le ha h1
  have hy : 0 < y := lt_of_lt_of_le hc h3
  exact ⟨div_le_div₀ (le_of_lt hx) h1 hy h4, div_le_div₀ (le_trans (le_of_lt hx) h2) h2 hc h3⟩


/-- Five roundings, each of relative size at most `u`, in `(s * c) / (d * c)`. -/
theorem chain_bound (u s d c a n dd mm r : ℚ) (hu0 : 0 < u) (hu1 : u < 1) (hs : 0 < s)
    (hd : 0 < d) (hc : 0 < c)
    (ha1 : (1 - u) * s ≤ a) (ha2 : a ≤ (1 + u) * s)
    (hn1 : (1 - u) * (a * c) ≤ n) (hn2 : n ≤ (1 + u) * (a * c))
    (hd1 : (1 - u) * d ≤ dd) (hd2 : dd ≤ (1 + u) * d)
    (hm1 : (1 - u) * (dd * c) ≤ mm) (hm2 : mm ≤ (1 + u) * (dd * c))
    (hr1 : (1 - u) * (n / mm) ≤ r) (hr2 : r ≤ (1 + u) * (n / mm)) :
    (1 - u) ^ 3 / (1 + u) ^ 2 * (s / d) ≤ r ∧ r ≤ (1 + u) ^ 3 / (1 - u) ^ 2 * (s / d) := by
  have h1u : 0 < 1 - u := by linarith
  have h1v : 0 < 1 + u := by linarith
  have hsc : 0 < s * c := mul_pos hs hc
  have hdc : 0 < d * c := mul_pos hd hc
  have n1 : (1 - u) ^ 2 * (s * c) ≤ n := by
    have : (1 - u) * ((1 - u) * s * c) ≤ (1 - u) * (a * c) :=
      mul_le_mul_of_nonneg_left (mul_le_mul_of_nonneg_right ha1 (le_of_lt hc)) (le_of_lt h1u)
    calc (1 - u) ^ 2 * (s * c) = (1 - u) * ((1 - u) * s * c) := by ring
      _ ≤ (1 - u) * (a * c) := this
      _ ≤ n := hn1
  have n2 : n ≤ (1 + u) ^ 2 * (s * c) := by
    have : (1 + u) * (a * c) ≤ (1 + u) * ((1 + u) * s * c) :=
      mul_le_mul_of_nonneg_left (mul_le_mul_of_nonneg_right ha2 (le_of_lt hc)) (le_of_lt h1v)
    calc n ≤ (1 + u) * (a * c) := hn2
      _ ≤ (1 + u) * ((1 + u) * s * c) := this
      _ = (1 + u) ^ 2 * (s * c) := by ring
  have m1 : (1 - u) ^ 2 * (d * c) ≤ mm := by
    have : (1 - u) * ((1 - u) * d * c) ≤ (1 - u) * (dd * c) :=
      mul_le_mul_of_nonneg_left (mul_le_mul_of_nonneg_right hd1 (le_of_lt hc)) (le_of_lt h1u)
    calc (1 - u) ^ 2 * (d * c) = (1 - u) * ((1 - u) * d * c) := by ring
      _ ≤ (1 - u) * (dd * c) := this
      _ ≤ mm := hm1
  have m2 : mm ≤ (1 + u) ^ 2 * (d * c) := by
    have : (1 + u) * (dd * c) ≤ (1 + u) * ((1 + u) * d * c) :=
      mul_le_mul_of_nonneg_left (mul_le_mul_of_nonneg_right hd2 (le_of_lt hc)) (le_of_lt h1v)
    calc mm ≤ (1 + u) * (dd * c) := hm2
      _ ≤ (1 + u) * ((1 + u) * d * c) := this
      _ = (1 + u) ^ 2 * (d * c) := by ring
  have p1 : 0 < (1 - u) ^ 2 * (s * c) := mul_pos (pow_pos h1u 2) hsc
  have p2 : 0 < (1 - u) ^ 2 * (d * c) := mul_pos (pow_pos h1u 2) hdc
  obtain ⟨q1, q2⟩ := quot_range p1 p2 n1 n2 m1 m2
  have hcne : c ≠ 0 := ne_of_gt hc
  have hdne : d ≠ 0 := ne_of_gt hd
  have hune : 1 - u ≠ 0 := ne_of_gt h1u
  have hvne : 1 + u ≠ 0 := ne_of_gt h1v
  constructor
  · calc (1 - u) ^ 3 / (1 + u) ^ 2 * (s / d)
        = (1 - u) * ((1 - u) ^ 2 * (s * c) / ((1 + u) ^ 2 * (d * c))) := by
          field_simp; ring
      _ ≤ (1 - u) * (n / mm) := mul_le_mul_of_nonneg_left q1 (le_of_lt h1u)
      _ ≤ r := hr1
  · calc r ≤ (1 + u) * (n / mm) := hr2
      _ ≤ (1 + u) * ((1 + u) ^ 2 * (s * c) / ((1 - u) ^ 2 * (d * c))) :=
          mul_le_mul_of_nonneg_left q2 (le_of_lt h1v)
      _ = (1 + u) ^ 3 / (1 - u) ^ 2 * (s / d) := by
          field_simp; ring


theorem toRat_lit1Em6 : toRat lit1Em6 = 4722366482869645 * (2 : ℚ) ^ (-72 : Int) := by
  rw [lit1Em6_eq, toRat_finite_pos]; push_cast; rfl

end F64

open F64 in
/-- The value of the bandwidth expression for a positive size and a positive duration:
a positive normal number within `(1 -+ u)^3 / (1 +- u)^2` of `size / durationUs`,
`u = 2^-53`. -/
theorem bandwidth_chain (s : Nat) (d : Int) (hs1 : 1 ≤ s) (hs2 : s < 2 ^ 64) (hd1 : 1 ≤ d)
    (hd2 : d < 2 ^ 63) :
    (∃ m e, bandwidth s d = .finite false m e ∧ 2 ^ 52 ≤ m ∧ m < 2 ^ 53) ∧
    (1 - (2 : ℚ) ^ (-53 : Int)) ^ 3 / (1 + (2 : ℚ) ^ (-53 : Int)) ^ 2 * ((s : ℚ) / d) ≤
      toRat (bandwidth s d) ∧
    toRat (bandwidth s d) ≤
      (1 + (2 : ℚ) ^ (-53 : Int)) ^ 3 / (1 - (2 : ℚ) ^ (-53 : Int)) ^ 2 * ((s : ℚ) / d) := by
  have hsq : (1 : ℚ) ≤ s := by exact_mod_cast hs1
  have hsq2 : (s : ℚ) ≤ 18446744073709551616 := by
    have : (s : ℚ) < ((2 ^ 64 : Nat) : ℚ) := by exact_mod_cast hs2
    have e : ((2 ^ 64 : Nat) : ℚ) = 18446744073709551616 := by norm_num
    linarith
  have hdq : (1 : ℚ) ≤ (d : ℚ) := by exact_mod_cast hd1
  have hdq2 : (d : ℚ) ≤ 9223372036854775808 := by
    have : (d : ℚ) < (((2 : Int) ^ 63 : Int) : ℚ) := by exact_mod_cast hd2
    have e : (((2 : Int) ^ 63 : Int) : ℚ) = 9223372036854775808 := by norm_num
    linarith
  have hs0 : (0 : ℚ) < s := by linarith
  have hd0 : (0 : ℚ) < (d : ℚ) := by linarith
  -- the constant, between 2^-20 and 2^-19
  have hc := toRat_lit1Em6
  have hc_lo : (1 / 1048576 : ℚ) ≤ toRat lit1Em6 := by rw [hc]; norm_num
  have hc_hi : toRat lit1Em6 ≤ (1 / 524288 : ℚ) := by rw [hc]; norm_num
  have hc0 : (0 : ℚ) < toRat lit1Em6 := by linarith
  have hC : Near lit1Em6 (4722366482869645 * (2 : ℚ) ^ (-72 : Int)) := lit1Em6_near
  -- numerator
  have hA := ofNat_near s hs1 hs2
  obtain ⟨a1, a2, a3, a4⟩ := hA.bounds hs0
  have ha_lo : (1 / 2 : ℚ) ≤ toRat (ofNat s) := by linarith
  have ha_hi : toRat (ofNat s) ≤ (36893488147419103232 : ℚ) := by linarith
  obtain ⟨r1, r2⟩ := prod_range (by norm_num) (by norm_num) ha_lo ha_hi hc_lo hc_hi
  have hN := mul_near hA hC
    (le_trans (by norm_num) r1) (le_trans r2 (by norm_num))
  have hac0 : 0 < toRat (ofNat s) * toRat lit1Em6 := mul_pos (by linarith) hc0
  obtain ⟨n1, n2, n3, n4⟩ := hN.bounds hac0
  -- denominator
  have hD := ofInt_near d hd1 hd2
  obtain ⟨d1, d2, d3, d4⟩ := hD.bounds hd0
  have hd_lo : (1 / 2 : ℚ) ≤ toRat (ofInt d) := by linarith
  have hd_hi : toRat (ofInt d) ≤ (18446744073709551616 : ℚ) := by linarith
  obtain ⟨t1, t2⟩ := prod_range (by norm_num) (by norm_num) hd_lo hd_hi hc_lo hc_hi
  have hM := mul_near hD hC
    (le_trans (by norm_num) t1) (le_trans t2 (by norm_num))
  have hdc0 : 0 < toRat (ofInt d) * toRat lit1Em6 := mul_pos (by linarith) hc0
  obtain ⟨m1, m2, m3, m4⟩ := hM.bounds hdc0
  -- quotient
  have hn_lo : (1 / 4194304 : ℚ) ≤ toRat (mul (ofNat s) lit1Em6) := by
    linarith
  have hn_hi : toRat (mul (ofNat s) lit1Em6) ≤ (140737488355328 : ℚ) := by
    linarith
  have hm_lo : (1 / 4194304 : ℚ) ≤ toRat (mul (ofInt d) lit1Em6) := by
    linarith
  have hm_hi : toRat (mul (ofInt d) lit1Em6) ≤ (140737488355328 : ℚ) := by
    linarith
  obtain ⟨w1, w2⟩ := quot_range (by norm_num) (by norm_num) hn_lo hn_hi hm_lo hm_hi
  have hR := div_near hN hM (le_trans (by norm_num) w1) (le_trans w2 (by norm_num))
  have hq0 : 0 < toRat (mul (ofNat s) lit1Em6) / toRat (mul (ofInt d) lit1Em6) :=
    div_pos (by linarith) (by linarith)
  obtain ⟨_, _, q3, q4⟩ := hR.bounds hq0
  have hb : bandwidth s d = div (mul (ofNat s) lit1Em6) (mul (ofInt d) lit1Em6) := rfl
  rw [hb]
  refine ⟨?_, ?_⟩
  · obtain ⟨m, e, h1, h2, h3, _⟩ := hR
    exact ⟨m, e, h1, h2, h3⟩
  · exact chain_bound ((2 : ℚ) ^ (-53 : Int)) s d (toRat lit1Em6) (toRat (ofNat s))
      (toRat (mul (ofNat s) lit1Em6)) (toRat (ofInt d)) (toRat (mul (ofInt d) lit1Em6))
      _ (two_zpow_pos _) (by norm_num) hs0 hd0 hc0 a3 a4 n3 n4 d3 d4 m3 m4 q3 q4


/-! ## Duration and bandwidth -/

/-- For clock readings in order, within the range of the tick count, the duration is
the difference in nanoseconds divided by 1000, rounded down. -/
theorem durationUs_eq (start stop : Nat) (h1 : start ≤ stop) (h2 : stop < 2 ^ 63) :
    durationUs start stop = (((stop - start) / 1000 : Nat) : Int) := by
  unfold durationUs
  have hw : ((stop : Int) - (start : Int) + 2 ^ 63) % 2 ^ 64 - 2 ^ 63 = ((stop - start : Nat) : Int) := by
    omega
  rw [hw, Int.ofNat_tdiv]
  rfl

open F64 in
/-- A zero size gives the bandwidth `+0`. -/
theorem bandwidth_zero_size (d : Int) (hd1 : 1 ≤ d) (hd2 : d < 2 ^ 63) :
    bandwidth 0 d = .finite false 0 0 := by
  have hC := lit1Em6_near
  have hD := ofInt_near d hd1 hd2
  have hd0 : (0 : ℚ) < (d : ℚ) := by
    have : (1 : ℚ) ≤ (d : ℚ) := by exact_mod_cast hd1
    linarith
  have hdq2 : (d : ℚ) ≤ 9223372036854775808 := by
    have : (d : ℚ) < (((2 : Int) ^ 63 : Int) : ℚ) := by exact_mod_cast hd2
    have e : (((2 : Int) ^ 63 : Int) : ℚ) = 9223372036854775808 := by norm_num
    linarith
  have hc := toRat_lit1Em6
  have hc_lo : (1 / 1048576 : ℚ) ≤ toRat lit1Em6 := by rw [hc]; norm_num
  have hc_hi : toRat lit1Em6 ≤ (1 / 524288 : ℚ) := by rw [hc]; norm_num
  obtain ⟨d1, d2, _, _⟩ := hD.bounds hd0
  have hd_lo : (1 / 2 : ℚ) ≤ toRat (ofInt d) := by
    have : (1 : ℚ) ≤ (d : ℚ) := by exact_mod_cast hd1
    linarith
  have hd_hi : toRat (ofInt d) ≤ (18446744073709551616 : ℚ) := by linarith
  obtain ⟨t1, t2⟩ := prod_range (by norm_num) (by norm_num) hd_lo hd_hi hc_lo hc_hi
  obtain ⟨n, f, hM, hn, _, _⟩ := mul_near hD hC
    (le_trans (by norm_num) t1) (le_trans t2 (by norm_num))
  have h0 : ofNat 0 = .finite false 0 0 := rfl
  have hnum : mul (ofNat 0) lit1Em6 = .finite false 0 0 := by
    rw [h0, lit1Em6_eq]; rfl
  have hn0 : ¬ (n = 0) := by omega
  show div (mul (ofNat 0) lit1Em6) (mul (ofInt d) lit1Em6) = _
  rw [hnum, hM]
  simp only [div, hn0, if_false, if_true, Bool.xor_false]

open F64 in
/-- A zero duration gives the bandwidth `+infinity` for every positive size. -/
theorem bandwidth_zero_duration (s : Nat) (hs1 : 1 ≤ s) (hs2 : s < 2 ^ 64) :
    bandwidth s 0 = .inf false := by
  have hC := lit1Em6_near
  have hA := ofNat_near s hs1 hs2
  have hsq : (1 : ℚ) ≤ s := by exact_mod_cast hs1
  have hsq2 : (s : ℚ) ≤ 18446744073709551616 := by
    have : (s : ℚ) < ((2 ^ 64 : Nat) : ℚ) := by exact_mod_cast hs2
    have e : ((2 ^ 64 : Nat) : ℚ) = 18446744073709551616 := by norm_num
    linarith
  have hc := toRat_lit1Em6
  have hc_lo : (1 / 1048576 : ℚ) ≤ toRat lit1Em6 := by rw [hc]; norm_num
  have hc_hi : toRat lit1Em6 ≤ (1 / 524288 : ℚ) := by rw [hc]; norm_num
  obtain ⟨a1, a2, _, _⟩ := hA.bounds (by linarith)
  have ha_lo : (1 / 2 : ℚ) ≤ toRat (ofNat s) := by linarith
  have ha_hi : toRat (ofNat s) ≤ (36893488147419103232 : ℚ) := by linarith
  obtain ⟨r1, r2⟩ := prod_range (by norm_num) (by norm_num) ha_lo ha_hi hc_lo hc_hi
  obtain ⟨n, f, hN, hn, _, _⟩ := mul_near hA hC
    (le_trans (by norm_num) r1) (le_trans r2 (by norm_num))
  have h0 : ofInt 0 = .finite false 0 0 := rfl
  have hden : mul (ofInt 0) lit1Em6 = .finite false 0 0 := by
    rw [h0, lit1Em6_eq]; rfl
  have hn0 : ¬ (n = 0) := by omega
  show div (mul (ofNat s) lit1Em6) (mul (ofInt 0) lit1Em6) = _
  rw [hN, hden]
  simp only [div, hn0, if_false, if_true, Bool.xor_false]

open F64 in
/-- C7 (amended). For every size below `2^64` and every duration `0 < d < 2^63`, the
`double` the program inserts in the `Bandwidth` line is finite and differs from
`(s * 10^-6) / (d * 10^-6) = s / d` by at most `2^-50` of that value: the five
roundings of the expression (two conversions, two products, one quotient), not
an exact computation. -/
theorem bandwidth_within_rounding (s : Nat) (d : Int) (hs : s < 2 ^ 64) (hd1 : 0 < d)
    (hd2 : d < 2 ^ 63) :
    (bandwidth s d).isFinite = true ∧
    (s : ℚ) * (10 : ℚ) ^ (-6 : Int) / ((d : ℚ) * (10 : ℚ) ^ (-6 : Int)) = (s : ℚ) / d ∧
    |toRat (bandwidth s d) - (s : ℚ) / d| ≤ (2 : ℚ) ^ (-50 : Int) * ((s : ℚ) / d) := by
  have hd0 : (0 : ℚ) < (d : ℚ) := by exact_mod_cast hd1
  refine ⟨?_, ?_, ?_⟩
  · by_cases h0 : s = 0
    · subst h0
      rw [bandwidth_zero_size d (by omega) hd2]; rfl
    · obtain ⟨⟨m, e, h, _, _⟩, _, _⟩ := bandwidth_chain s d (by omega) hs (by omega) hd2
      rw [h]; rfl
  · have h10 : (10 : ℚ) ^ (-6 : Int) ≠ 0 := by norm_num
    have hdne : (d : ℚ) ≠ 0 := ne_of_gt hd0
    field_simp
  · by_cases h0 : s = 0
    · subst h0
      rw [bandwidth_zero_size d (by omega) hd2]
      simp [toRat]
    · obtain ⟨_, hlo, hhi⟩ := bandwidth_chain s d (by omega) hs (by omega) hd2
      have hs0 : (0 : ℚ) < (s : ℚ) := by
        have : 0 < s := by omega
        exact_mod_cast this
      have hx : 0 < (s : ℚ) / d := div_pos hs0 hd0
      have hL : 1 - (2 : ℚ) ^ (-50 : Int) ≤
          (1 - (2 : ℚ) ^ (-53 : Int)) ^ 3 / (1 + (2 : ℚ) ^ (-53 : Int)) ^ 2 := by norm_num
      have hU : (1 + (2 : ℚ) ^ (-53 : Int)) ^ 3 / (1 - (2 : ℚ) ^ (-53 : Int)) ^ 2 ≤
          1 + (2 : ℚ) ^ (-50 : Int) := by norm_num
      have h1 := mul_le_mul_of_nonneg_right hL (le_of_lt hx)
      have h2 := mul_le_mul_of_nonneg_right hU (le_of_lt hx)
      rw [abs_le]
      constructor
      · have : (1 - (2 : ℚ) ^ (-50 : Int)) * ((s : ℚ) / d) =
            (s : ℚ) / d - (2 : ℚ) ^ (-50 : Int) * ((s : ℚ) / d) := by ring
        linarith
      · have : (1 + (2 : ℚ) ^ (-50 : Int)) * ((s : ℚ) / d) =
            (s : ℚ) / d + (2 : ℚ) ^ (-50 : Int) * ((s : ℚ) / d) := by ring
        linarith

open F64 in
/-- For 5 MiB copied in 3 microseconds the inserted value is within `2^-50` of
`5242880 / 3`. -/
theorem bandwidth_within_rounding_witness :
    5242880 < 2 ^ 64 ∧ (0 : Int) < 3 ∧ (3 : Int) < 2 ^ 63 ∧
    |toRat (bandwidth 5242880 3) - ((5242880 : Nat) : ℚ) / ((3 : Int) : ℚ)| ≤
      (2 : ℚ) ^ (-50 : Int) * (((5242880 : Nat) : ℚ) / ((3 : Int) : ℚ)) :=
  ⟨by norm_num, by norm_num, by norm_num,
    (bandwidth_within_rounding 5242880 3 (by norm_num) (by norm_num) (by norm_num)).2.2⟩

set_option maxRecDepth 100000 in
open F64 in
/-- C7 (as stated) fails: for 5 MiB copied in 3 microseconds the inserted `double` is
`7505999378950826 * 2^-32`, which is neither `5242880 * 10^-6 / (3 * 10^-6)` nor
`5242880 / 3` (no `double` is: the denominator 3 is not a power of two). -/
theorem bandwidth_not_exact :
    bandwidth 5242880 3 = .finite false 7505999378950826 (-32) ∧
    toRat (bandwidth 5242880 3) ≠
      (5242880 : ℚ) * (10 : ℚ) ^ (-6 : Int) / (3 * (10 : ℚ) ^ (-6 : Int)) ∧
    toRat (bandwidth 5242880 3) ≠ (5242880 : ℚ) / 3 := by
  have h : bandwidth 5242880 3 = .finite false 7505999378950826 (-32) := by decide
  refine ⟨h, ?_, ?_⟩
  · rw [h, toRat_finite_pos]; norm_num
  · rw [h, toRat_finite_pos]; norm_num

/-- C8. For clock readings in order (within the range of the signed 64-bit tick
count) and an allocation of at least 5 MiB (a `VkDeviceSize`), the duration is a
non-negative integer; the bandwidth is `+infinity` when the duration is 0 and a
positive finite number when it is positive; it is never a NaN and never
negative. -/
theorem duration_bandwidth_sign (start stop size : Nat) (h1 : start ≤ stop)
    (h2 : stop < 2 ^ 63) (h3 : 5 * 1024 * 1024 ≤ size) (h4 : size < 2 ^ 64) :
    0 ≤ durationUs start stop ∧
    (durationUs start stop = 0 → bandwidth size (durationUs start stop) = .inf false) ∧
    (0 < durationUs start stop →
      ∃ m e, bandwidth size (durationUs start stop) = .finite false m e ∧ 0 < m) ∧
    bandwidth size (durationUs start stop) ≠ .nan ∧
    bandwidth size (durationUs start stop) ≠ .inf true ∧
    (∀ m e, bandwidth size (durationUs start stop) ≠ .finite true m e) := by
  have hus := durationUs_eq start stop h1 h2
  have hnn : 0 ≤ durationUs start stop := by rw [hus]; exact Int.ofNat_nonneg _
  have hlt : durationUs start stop < 2 ^ 63 := by rw [hus]; omega
  have hzero : durationUs start stop = 0 →
      bandwidth size (durationUs start stop) = .inf false := by
    intro h
    rw [h]
    exact bandwidth_zero_duration size (by omega) h4
  have hpos : 0 < durationUs start stop →
      ∃ m e, bandwidth size (durationUs start stop) = .finite false m e ∧ 0 < m := by
    intro h
    obtain ⟨⟨m, e, hb, hm, _⟩, _, _⟩ :=
      bandwidth_chain size (durationUs start stop) (by omega) h4 (by omega) hlt
    exact ⟨m, e, hb, by omega⟩
  refine ⟨hnn, hzero, hpos, ?_, ?_, ?_⟩
  · rcases eq_or_lt_of_le hnn with h | h
    · rw [hzero h.symm]; exact fun h' => F64.noConfusion h'
    · obtain ⟨m, e, hb, _⟩ := hpos h
      rw [hb]; exact fun h' => F64.noConfusion h'
  · rcases eq_or_lt_of_le hnn with h | h
    · rw [hzero h.symm]; decide
    · obtain ⟨m, e, hb, _⟩ := hpos h
      rw [hb]; exact fun h' => F64.noConfusion h'
  · intro m' e'
    rcases eq_or_lt_of_le hnn with h | h
    · rw [hzero h.symm]; exact fun h' => F64.noConfusion h'
    · obtain ⟨m, e, hb, _⟩ := hpos h
      rw [hb]
      intro h'
      injection h' with hneg
      exact Bool.noConfusion hneg

/-- Readings 4 ms apart give 4000 microseconds; equal readings give 0 microseconds and
the bandwidth `+infinity`. -/
theorem duration_bandwidth_sign_witness :
    (1000 ≤ 4001000 ∧ 4001000 < 2 ^ 63 ∧ 5 * 1024 * 1024 ≤ 5242880 ∧ 5242880 < 2 ^ 64 ∧
      durationUs 1000 4001000 = 4000 ∧ 0 ≤ durationUs 1000 4001000 ∧
      bandwidth 5242880 (durationUs 1000 4001000) ≠ .nan) ∧
    (durationUs 1000 1000 = 0 ∧ bandwidth 5242880 (durationUs 1000 1000) = .inf false) := by
  have h := duration_bandwidth_sign 1000 4001000 5242880 (by norm_num) (by norm_num)
    (by norm_num) (by norm_num)
  have h' := duration_bandwidth_sign 1000 1000 5242880 (by norm_num) (by norm_num)
    (by norm_num) (by norm_num)
  exact ⟨⟨by norm_num, by norm_num, by norm_num, by norm_num, by decide, h.1, h.2.2.2.1⟩,
    by decide, h'.2.1 (by decide)⟩

end VkPerf
